import Mathlib

/-!
Verification of the package-build orchestration script
(scripts/package-build/build.py of the vyos-build repository).

The script is shallowly embedded: filesystem state is an explicit `FS`
value (a list of directories plus an association list of file contents),
external command invocations are driven by a `World` oracle recording
which command succeeds, and the per-job pipeline `build_package` is a
sequential composition of step functions threading a state/error record,
mirroring the Python control flow (a raised `CalledProcessError` or
`OSError` is an `err` field that freezes the remaining steps).
-/

namespace VyosBuild

/-- A filesystem path, as the list of its segments (`pathlib` paths are
segment sequences; `a / b` is `++`). -/
abbrev FsPath := List String

/-- Filesystem state: the set of directories that exist, and the regular
files with their text contents.  Later entries of `files` may be shadowed
by earlier ones (writing prepends); `lookupFile` takes the first match. -/
structure FS where
  dirs : List FsPath
  files : List (FsPath × String)
deriving DecidableEq, Repr

/-- First-match lookup in the file association list. -/
def lookupFile : List (FsPath × String) → FsPath → Option String
  | [], _ => none
  | e :: rest, p => if e.1 = p then some e.2 else lookupFile rest p

/-- Contents of the file at `p`, if it exists. -/
def FS.readFile (fs : FS) (p : FsPath) : Option String := lookupFile fs.files p

/-- Write (create or overwrite) the file at `p`. -/
def FS.writeFile (fs : FS) (p : FsPath) (c : String) : FS :=
  { fs with files := (p, c) :: fs.files }

/-- `Path.is_dir()` for the model: `p` is a directory. -/
def FS.isDir (fs : FS) (p : FsPath) : Bool := decide (p ∈ fs.dirs)

/-- `Path.exists()` for the model: `p` is a directory or a file. -/
def FS.pathExists (fs : FS) (p : FsPath) : Bool :=
  fs.isDir p || (fs.readFile p).isSome

/-- `p.mkdir(parents=True, exist_ok=True)`: create `p` and every
ancestor of `p`. -/
def FS.mkdirParents (fs : FS) (p : FsPath) : FS :=
  { fs with dirs := ((List.range p.length).map (fun i => p.take (i + 1))) ++ fs.dirs }

/-- Open in mode `'a'` and write `c`: append to the existing contents,
creating the file when absent. -/
def FS.appendFile (fs : FS) (p : FsPath) (c : String) : FS :=
  fs.writeFile p (((fs.readFile p).getD "") ++ c)

/-- If `p` is directly inside directory `d`, its name; `none` otherwise. -/
def childOf (d : FsPath) (p : FsPath) : Option String :=
  if p.dropLast = d then p.getLast? else none

/-- The names of the regular files directly inside directory `d`
(`patch_dir.glob('*')` over a patch directory holding regular patch
files; subdirectories inside a patch directory are outside the model). -/
def FS.childNames (fs : FS) (d : FsPath) : List String :=
  fs.files.filterMap (fun e => childOf d e.1)

/-- Lexicographic comparison of character lists by code point, the
order Python uses to compare strings. -/
def charListLe : List Char → List Char → Bool
  | [], _ => true
  | _ :: _, [] => false
  | a :: as, b :: bs => if a < b then true else if b < a then false else charListLe as bs

/-- Lexicographic comparison of strings by code point (semantically the
standard order on `String`; defined structurally so that it evaluates). -/
def strLe (a b : String) : Bool := charListLe a.data b.data

/-- Python `sorted` on the globbed paths of one directory: lexicographic
order on the file names. -/
def sortNames (l : List String) : List String :=
  List.insertionSort (fun a b => strLe a b = true) l

/-- The text appended to the `series` manifest for a list of patch
names: each name followed by a newline (`series.write(patch.name + '\n')`
per iteration). -/
def seriesText : List String → String
  | [] => ""
  | n :: rest => n ++ "\n" ++ seriesText rest

/-- The body of the `for patch in patches` loop of `apply_patches`:
copy the patch file into `debian/patches` and append its name to the
`series` manifest (which is open in append mode). -/
def apply_patches_loop (dpd src series : FsPath) : List String → FS → FS
  | [], fs => fs
  | n :: rest, fs =>
    let copied := fs.writeFile (dpd ++ [n]) ((fs.readFile (src ++ [n])).getD "")
    apply_patches_loop dpd src series rest (copied.appendFile series (n ++ "\n"))

/-- `apply_patches(repo_dir, patch_dir)`: if the patch directory does
not exist (or is not a directory) or holds no patches, return without
touching the checkout; otherwise create `debian/patches` and process the
patches in sorted order. -/
def apply_patches (repo_dir patch_dir : FsPath) (fs : FS) : FS :=
  if fs.isDir patch_dir then
    let patches := sortNames (fs.childNames patch_dir)
    if patches = [] then fs
    else
      let dpd := repo_dir ++ ["debian", "patches"]
      apply_patches_loop dpd patch_dir (dpd ++ ["series"]) patches (fs.mkdirParents dpd)
  else fs

/-! ### The per-job pipeline `build_package` -/

/-- One `packages` entry of the configuration file, with the keys read
by the script (`package.get` defaults become `Option`/default values). -/
structure Package where
  name : String
  scm_url : String
  commit_id : String
  pre_build_hook : String := ""
  apply_patches : Option Bool := none
  prepare_package : Option Bool := none
  install_data : String := ""
  build_cmd : Option String := none
deriving DecidableEq, Repr

/-- `package.get('apply_patches', True)`. -/
def Package.applyPatches (p : Package) : Bool := p.apply_patches.getD true

/-- `package.get('prepare_package', False)`. -/
def Package.preparePackage (p : Package) : Bool := p.prepare_package.getD false

/-- Oracle for the outcome of the external commands a job runs (`run`
with `check=True` raises `CalledProcessError` exactly when the command
exits non-zero).  `installWriteError` is the filesystem error, if any,
raised while writing `debian/install` in `prepare_package`. -/
structure World where
  cloneOk : Bool := true
  checkoutOk : Bool := true
  hookOk : Bool := true
  tarOk : Bool := true
  mkBuildDepsOk : Bool := true
  dpkgInstallOk : Bool := true
  primaryBuildOk : Bool := true
  fallbackBuildOk : Bool := true
  installWriteError : Option String := none
deriving DecidableEq, Repr

/-- Observable events of a job: external commands that were started,
lines printed, and calls into `apply_patches`.  `failLog n e` is the
line `Failed to build package {n}: {e}` (printed both by the
build-dependency handler and by the per-job outer handler). -/
inductive Event where
  | ranClone (url : String) (dir : String)
  | ranCheckout (commit : String)
  | ranHook (cmd : String)
  | invokedApplyPatches (repo : FsPath) (pdir : FsPath)
  | ranTar (tarball : String)
  | ranMkBuildDeps
  | ranDpkgInstall
  | ranBuild (cmd : String)
  | log (msg : String)
  | failLog (pkg : String) (err : String)
  | ranCleanupBuildDeps
  | ranCopyPackages
deriving DecidableEq, Repr

/-- A Python exception in flight: `CalledProcessError` from a `run`
with `check=True`, or an `OSError` escaping `prepare_package`. -/
inductive StepErr where
  | cpe (cmd : String)
  | os (msg : String)
deriving DecidableEq, Repr

/-- State threaded through the body of `build_package`'s `try:` block:
the filesystem, the events so far, and the exception in flight (if any
step raised, the following steps are skipped). -/
structure SRes where
  fs : FS
  evs : List Event
  err : Option StepErr
deriving DecidableEq, Repr

/-- `print(e)` for a `CalledProcessError` of command `cmd`. -/
def cpeMessage (cmd : String) : String :=
  "Command " ++ cmd ++ " returned non-zero exit status 1."

/-- `commit_id.replace('/', '_')`: the pattern is the single character
`/`, so each occurrence becomes `_`. -/
def sanitizeCommit (s : String) : String :=
  String.mk (s.data.map (fun c => if c = '/' then '_' else c))

/-- `f"{repo_name}_{commit_id_sanitized}.tar.gz"`. -/
def tarball_name (pkg : Package) : String :=
  pkg.name ++ "_" ++ sanitizeCommit pkg.commit_id ++ ".tar.gz"

/-- Python truthiness of a `pathlib.Path` object: `Path` defines
neither a `__bool__` nor a `__len__` method, so `bool(repo_dir / 'patches')`
falls back to default object truthiness and is `True` for every path,
whether or not anything exists on disk. -/
def pathTruthy (_p : FsPath) : Bool := true

/-- Default build command (source + binary). -/
def defaultBuildCmdFull : String := "dpkg-buildpackage -uc -us -tc -F"

/-- Default fallback build command (binary only). -/
def defaultBuildCmdBin : String := "dpkg-buildpackage -uc -us -tc -b"

/-- `sudo mk-build-deps --install --tool "apt-get --yes --no-install-recommends"`. -/
def mkBuildDepsCmd : String :=
  "sudo mk-build-deps --install --tool \"apt-get --yes --no-install-recommends\""

/-- `sudo dpkg -i *build-deps*.deb`. -/
def dpkgInstallCmd : String := "sudo dpkg -i *build-deps*.deb"

/-- CLONE: `if not repo_dir.exists(): run(['git', 'clone', ...], check=True)`. -/
def stepClone (pkg : Package) (w : World) (s : SRes) : SRes :=
  if s.err.isSome then s
  else if s.fs.pathExists [pkg.name] then s
  else if w.cloneOk then
    { s with fs := s.fs.mkdirParents [pkg.name],
             evs := s.evs ++ [Event.ranClone pkg.scm_url pkg.name] }
  else
    { s with evs := s.evs ++ [Event.ranClone pkg.scm_url pkg.name],
             err := some (StepErr.cpe ("git clone " ++ pkg.scm_url ++ " " ++ pkg.name)) }

/-- CHECKOUT: `run(['git', 'checkout', package['commit_id']], cwd=repo_dir, check=True)`. -/
def stepCheckout (pkg : Package) (w : World) (s : SRes) : SRes :=
  if s.err.isSome then s
  else if w.checkoutOk then
    { s with evs := s.evs ++ [Event.ranCheckout pkg.commit_id] }
  else
    { s with evs := s.evs ++ [Event.ranCheckout pkg.commit_id],
             err := some (StepErr.cpe ("git checkout " ++ pkg.commit_id)) }

/-- PRE_BUILD_HOOK: if configured, run it through the shell; on
`CalledProcessError` print the error and a diagnostic line and re-raise. -/
def stepHook (pkg : Package) (w : World) (s : SRes) : SRes :=
  if s.err.isSome then s
  else if pkg.pre_build_hook = "" then s
  else if w.hookOk then
    { s with evs := s.evs ++
        [Event.log ("I: execute pre_build_hook for the package \"" ++ pkg.name ++ "\""),
         Event.ranHook pkg.pre_build_hook] }
  else
    let evs2 := s.evs ++
      [Event.log ("I: execute pre_build_hook for the package \"" ++ pkg.name ++ "\""),
       Event.ranHook pkg.pre_build_hook,
       Event.log (cpeMessage pkg.pre_build_hook),
       Event.log ("I: pre_build_hook failed for the " ++ pkg.name)]
    { s with evs := evs2, err := some (StepErr.cpe pkg.pre_build_hook) }

/-- PATCH: `if package.get('apply_patches', True): if (repo_dir / 'patches'):
apply_patches(repo_dir, patch_dir / repo_name)`.  The inner condition is
the truthiness of a `Path` object (see `pathTruthy`). -/
def stepPatch (pkg : Package) (patch_dir : FsPath) (s : SRes) : SRes :=
  if s.err.isSome then s
  else if pkg.applyPatches then
    if pathTruthy ([pkg.name] ++ ["patches"]) then
      { s with fs := apply_patches [pkg.name] (patch_dir ++ [pkg.name]) s.fs,
               evs := s.evs ++ [Event.invokedApplyPatches [pkg.name] (patch_dir ++ [pkg.name])] }
    else s
  else s

/-- ARCHIVE: `run(['tar', '-czf', tarball_name, '-C', str(repo_dir.parent),
repo_name], check=True)`, creating the tarball in the current directory. -/
def stepArchive (pkg : Package) (w : World) (s : SRes) : SRes :=
  if s.err.isSome then s
  else if w.tarOk then
    { s with fs := s.fs.writeFile [tarball_name pkg] "tarball",
             evs := s.evs ++ [Event.ranTar (tarball_name pkg),
               Event.log ("I: Tarball created: " ++ tarball_name pkg)] }
  else
    { s with evs := s.evs ++ [Event.ranTar (tarball_name pkg)],
             err := some (StepErr.cpe ("tar -czf " ++ tarball_name pkg)) }

/-- `prepare_package(repo_dir, install_data)`: without install data a
no-op with a message; otherwise write `debian/install` (creating the
parent directory); a filesystem error is logged and re-raised. -/
def prepare_package (repo_dir : FsPath) (install_data : String)
    (writeErr : Option String) (fs : FS) : FS × List Event × Option StepErr :=
  if install_data = "" then
    (fs, [Event.log "I: No install data provided, skipping package preparation"], none)
  else
    match writeErr with
    | none =>
      (((fs.mkdirParents (repo_dir ++ ["debian"])).writeFile
          (repo_dir ++ ["debian", "install"]) install_data),
       [Event.log "I: Prepared package"], none)
    | some m =>
      (fs.mkdirParents (repo_dir ++ ["debian"]),
       [Event.log ("Failed to prepare package: " ++ m)], some (StepErr.os m))

/-- PREPARE: `if package.get('prepare_package', False):
prepare_package(repo_dir, package.get('install_data', ''))`. -/
def stepPrepare (pkg : Package) (w : World) (s : SRes) : SRes :=
  if s.err.isSome then s
  else if pkg.preparePackage then
    let r := prepare_package [pkg.name] pkg.install_data w.installWriteError s.fs
    { fs := r.1, evs := s.evs ++ r.2.1, err := r.2.2 }
  else s

/-- INSTALL_BUILD_DEPS: only if `debian/control` exists; a
`CalledProcessError` from either command is caught and logged (with the
same text the outer handler uses) but does not abort the job. -/
def stepBuildDeps (pkg : Package) (w : World) (s : SRes) : SRes :=
  if s.err.isSome then s
  else if s.fs.pathExists ([pkg.name] ++ ["debian", "control"]) then
    if w.mkBuildDepsOk then
      if w.dpkgInstallOk then
        { s with evs := s.evs ++ [Event.ranMkBuildDeps, Event.ranDpkgInstall] }
      else
        { s with evs := s.evs ++ [Event.ranMkBuildDeps, Event.ranDpkgInstall,
            Event.failLog pkg.name dpkgInstallCmd] }
    else
      { s with evs := s.evs ++ [Event.ranMkBuildDeps, Event.failLog pkg.name mkBuildDepsCmd] }
  else s

/-- BUILD: run `package.get('build_cmd', 'dpkg-buildpackage -uc -us -tc -F')`;
on `CalledProcessError` print the error and a notice, then run
`package.get('build_cmd', 'dpkg-buildpackage -uc -us -tc -b')` once; a
failure of that second command propagates. -/
def stepBuild (pkg : Package) (w : World) (s : SRes) : SRes :=
  if s.err.isSome then s
  else if w.primaryBuildOk then
    { s with evs := s.evs ++ [Event.ranBuild (pkg.build_cmd.getD defaultBuildCmdFull)] }
  else if w.fallbackBuildOk then
    { s with evs := s.evs ++
        [Event.ranBuild (pkg.build_cmd.getD defaultBuildCmdFull),
         Event.log (cpeMessage (pkg.build_cmd.getD defaultBuildCmdFull)),
         Event.log "I: Source packages build failed, ignoring - building binaries only",
         Event.ranBuild (pkg.build_cmd.getD defaultBuildCmdBin)] }
  else
    let evs2 := s.evs ++
      [Event.ranBuild (pkg.build_cmd.getD defaultBuildCmdFull),
       Event.log (cpeMessage (pkg.build_cmd.getD defaultBuildCmdFull)),
       Event.log "I: Source packages build failed, ignoring - building binaries only",
       Event.ranBuild (pkg.build_cmd.getD defaultBuildCmdBin)]
    { s with evs := evs2, err := some (StepErr.cpe (pkg.build_cmd.getD defaultBuildCmdBin)) }

/-- The body of `build_package`'s `try:` block, as the sequential
composition of its steps. -/
def build_package_try (pkg : Package) (patch_dir : FsPath) (w : World) (fs : FS) : SRes :=
  stepBuild pkg w (stepBuildDeps pkg w (stepPrepare pkg w (stepArchive pkg w
    (stepPatch pkg patch_dir (stepHook pkg w (stepCheckout pkg w
      (stepClone pkg w { fs := fs, evs := [], err := none })))))))

/-- `build_package(package, patch_dir)`: the `except CalledProcessError`
handler logs `Failed to build package {name}: {e}` and swallows the
exception; any other exception (the `OSError` from `prepare_package`)
propagates to the caller. -/
def build_package (pkg : Package) (patch_dir : FsPath) (w : World) (fs : FS) :
    Except (String × List Event × FS) (List Event × FS) :=
  let r := build_package_try pkg patch_dir w fs
  match r.err with
  | none => Except.ok (r.evs, r.fs)
  | some (StepErr.cpe c) =>
      Except.ok (r.evs ++ [Event.failLog pkg.name c], r.fs)
  | some (StepErr.os m) => Except.error (m, r.evs, r.fs)

/-- Events of a finished or aborted job. -/
def resultEvents : Except (String × List Event × FS) (List Event × FS) → List Event
  | Except.ok (evs, _) => evs
  | Except.error (_, evs, _) => evs

/-- Filesystem after a finished or aborted job. -/
def resultFS : Except (String × List Event × FS) (List Event × FS) → FS
  | Except.ok (_, f) => f
  | Except.error (_, _, f) => f

/-- After `build_package` returns normally, the loop body runs
`cleanup_build_deps` and `copy_packages` (each catches all its own
exceptions; their filesystem effects are not observed by any property
here) and then continues with the remaining jobs: the finished job's
log is prepended to the outcome of the rest of the loop. -/
def afterJob (evs : List Event) (r : Except (String × List (List Event)) (List (List Event) × FS)) :
    Except (String × List (List Event)) (List (List Event) × FS) :=
  match r with
  | Except.error (m, logs) =>
      Except.error (m, (evs ++ [Event.ranCleanupBuildDeps, Event.ranCopyPackages]) :: logs)
  | Except.ok (logs, fs2) =>
      Except.ok ((evs ++ [Event.ranCleanupBuildDeps, Event.ranCopyPackages]) :: logs, fs2)

/-- The `for package in packages:` loop of `__main__`: build each
package, then clean up build-dependency packages and copy the produced
packages, then the next job.  An exception escaping `build_package`
aborts the whole loop.  Returns the per-job event logs. -/
def process_packages : List (Package × World) → FsPath → FS →
    Except (String × List (List Event)) (List (List Event) × FS)
  | [], _, fs => Except.ok ([], fs)
  | (pkg, w) :: rest, pd, fs =>
    match build_package pkg pd w fs with
    | Except.error (m, evs, _) => Except.error (m, [evs])
    | Except.ok (evs, fs1) => afterJob evs (process_packages rest pd fs1)

/-- The commands passed to the build invocations of a job, in order. -/
def buildCmds (evs : List Event) : List String :=
  evs.filterMap (fun e => match e with
    | Event.ranBuild c => some c
    | _ => none)

/-- How many build invocations were attempted. -/
def buildAttempts (evs : List Event) : Nat := (buildCmds evs).length

/-- The failure modes of a job that raise `CalledProcessError` inside
the `try:` block: checkout, a configured pre-build hook, archive
creation, or both build invocations. -/
def cpeFailure (pkg : Package) (w : World) : Prop :=
  w.checkoutOk = false
  ∨ (pkg.pre_build_hook ≠ "" ∧ w.hookOk = false)
  ∨ w.tarOk = false
  ∨ (w.primaryBuildOk = false ∧ w.fallbackBuildOk = false)

instance (pkg : Package) (w : World) : Decidable (cpeFailure pkg w) := by
  unfold cpeFailure
  infer_instance

/-! ### Basic filesystem lemmas -/

theorem readFile_writeFile (fs : FS) (p q : FsPath) (c : String) :
    (fs.writeFile p c).readFile q = if p = q then some c else fs.readFile q := by
  simp [FS.writeFile, FS.readFile, lookupFile]

theorem readFile_appendFile (fs : FS) (p q : FsPath) (c : String) :
    (fs.appendFile p c).readFile q =
      if p = q then some (((fs.readFile p).getD "") ++ c) else fs.readFile q := by
  simp [FS.appendFile, readFile_writeFile]

theorem readFile_mkdirParents (fs : FS) (p q : FsPath) :
    (fs.mkdirParents p).readFile q = fs.readFile q := rfl

theorem dirs_writeFile (fs : FS) (p : FsPath) (c : String) :
    (fs.writeFile p c).dirs = fs.dirs := rfl

theorem dirs_appendFile (fs : FS) (p : FsPath) (c : String) :
    (fs.appendFile p c).dirs = fs.dirs := rfl

theorem isDir_mkdirParents_self (fs : FS) (p : FsPath) (h : p ≠ []) :
    (fs.mkdirParents p).isDir p = true := by
  have hlen : 0 < p.length := List.length_pos.mpr h
  simp only [FS.mkdirParents, FS.isDir, List.mem_append, decide_eq_true_eq]
  left
  refine List.mem_map.mpr ⟨p.length - 1, ?_, ?_⟩
  · exact List.mem_range.mpr (by omega)
  · rw [Nat.sub_add_cancel hlen]
    exact List.take_length p

theorem isDir_mkdirParents_mono (fs : FS) (p d : FsPath) (h : fs.isDir d = true) :
    (fs.mkdirParents p).isDir d = true := by
  simp only [FS.mkdirParents, FS.isDir, List.mem_append, decide_eq_true_eq] at *
  right; exact h

theorem childNames_writeFile (fs : FS) (p d : FsPath) (c : String)
    (h : p.dropLast ≠ d) :
    (fs.writeFile p c).childNames d = fs.childNames d := by
  simp [FS.writeFile, FS.childNames, childOf, h]

theorem childNames_appendFile (fs : FS) (p d : FsPath) (c : String)
    (h : p.dropLast ≠ d) :
    (fs.appendFile p c).childNames d = fs.childNames d :=
  childNames_writeFile _ _ _ _ h

theorem childNames_mkdirParents (fs : FS) (p d : FsPath) :
    (fs.mkdirParents p).childNames d = fs.childNames d := rfl

/-- Appending one final segment to a path is injective in both parts. -/
theorem concat_inj {a b : FsPath} {x y : String} (h : a ++ [x] = b ++ [y]) :
    a = b ∧ x = y := by
  obtain ⟨h1, h2⟩ := List.append_inj' h rfl
  exact ⟨h1, by simpa using h2⟩

theorem concat_ne_of_base_ne {a b : FsPath} (x y : String) (h : a ≠ b) :
    a ++ [x] ≠ b ++ [y] := fun hc => h (concat_inj hc).1

theorem concat_ne_of_last_ne (a : FsPath) {x y : String} (h : x ≠ y) :
    a ++ [x] ≠ a ++ [y] := fun hc => h (concat_inj hc).2

/-! ### The comparison used by `sorted` -/

theorem charListLe_total : ∀ x y : List Char, charListLe x y = true ∨ charListLe y x = true := by
  intro x
  induction x with
  | nil => intro y; left; rfl
  | cons a as ih =>
    intro y
    cases y with
    | nil => right; rfl
    | cons b bs =>
      rcases lt_trichotomy a b with h | h | h
      · left; simp [charListLe, h]
      · subst h
        rcases ih bs with h2 | h2
        · left; simp [charListLe, lt_irrefl, h2]
        · right; simp [charListLe, lt_irrefl, h2]
      · right; simp [charListLe, h]

theorem charListLe_trans : ∀ x y z : List Char,
    charListLe x y = true → charListLe y z = true → charListLe x z = true := by
  intro x
  induction x with
  | nil => intro y z _ _; rfl
  | cons a as ih =>
    intro y z h1 h2
    cases y with
    | nil => simp [charListLe] at h1
    | cons b bs =>
      cases z with
      | nil => simp [charListLe] at h2
      | cons c cs =>
        by_cases hab : a < b
        · by_cases hbc : b < c
          · simp [charListLe, lt_trans hab hbc]
          · by_cases hcb : c < b
            · simp [charListLe, hbc, hcb] at h2
            · have : b = c := le_antisymm (not_lt.mp hcb) (not_lt.mp hbc)
              subst this
              simp [charListLe, hab]
        · by_cases hba : b < a
          · simp [charListLe, hab, hba] at h1
          · have : a = b := le_antisymm (not_lt.mp hba) (not_lt.mp hab)
            subst this
            simp only [charListLe, if_neg (lt_irrefl a)] at h1
            by_cases hac : a < c
            · simp [charListLe, hac]
            · by_cases hca : c < a
              · simp [charListLe, hac, hca] at h2
              · simp only [charListLe, if_neg (lt_irrefl a), if_neg hac, if_neg hca] at h2 ⊢
                exact ih bs cs h1 h2

instance : IsTotal String (fun a b => strLe a b = true) :=
  ⟨fun a b => charListLe_total a.data b.data⟩

instance : IsTrans String (fun a b => strLe a b = true) :=
  ⟨fun a b c => charListLe_trans a.data b.data c.data⟩

/-- `charListLe x y` implies `y` is not lexicographically below `x`. -/
theorem charListLe_not_lex : ∀ {x y : List Char},
    charListLe x y = true → ¬ List.Lex (fun a b => a < b) y x := by
  intro x
  induction x with
  | nil => intro y _ hlt; exact List.Lex.not_nil_right _ _ hlt
  | cons a as ih =>
    intro y h hlt
    cases y with
    | nil => simp [charListLe] at h
    | cons b bs =>
      by_cases hab : a < b
      · cases hlt with
        | cons hl => exact lt_irrefl a hab
        | rel hr => exact lt_asymm hab hr
      · by_cases hba : b < a
        · simp [charListLe, hab, hba] at h
        · simp only [charListLe, if_neg hab, if_neg hba] at h
          cases hlt with
          | cons hl => exact ih h hl
          | rel hr => exact hba hr

/-- The structural comparison agrees with the standard order on strings. -/
theorem strLe_le {a b : String} (h : strLe a b = true) : a ≤ b := by
  rw [String.le_iff_toList_le, ← not_lt]
  intro hlt
  have hlex : List.Lex (fun a b => a < b) b.toList a.toList := hlt
  exact charListLe_not_lex h hlex

/-! ### Specification of the patch-application loop -/

theorem apply_patches_loop_spec (dpd src : FsPath) (hds : dpd ≠ src) :
    ∀ (names : List String) (fs0 acc : FS),
      names.Nodup → "series" ∉ names →
      (∀ n ∈ names, acc.readFile (src ++ [n]) = fs0.readFile (src ++ [n])) →
      (names ≠ [] →
        (apply_patches_loop dpd src (dpd ++ ["series"]) names acc).readFile (dpd ++ ["series"])
          = some (((acc.readFile (dpd ++ ["series"])).getD "") ++ seriesText names))
      ∧ (∀ n ∈ names,
          (apply_patches_loop dpd src (dpd ++ ["series"]) names acc).readFile (dpd ++ [n])
            = some ((fs0.readFile (src ++ [n])).getD ""))
      ∧ (∀ p, p ≠ dpd ++ ["series"] → (∀ n ∈ names, p ≠ dpd ++ [n]) →
          (apply_patches_loop dpd src (dpd ++ ["series"]) names acc).readFile p
            = acc.readFile p)
      ∧ (apply_patches_loop dpd src (dpd ++ ["series"]) names acc).dirs = acc.dirs
      ∧ (∀ d, d ≠ dpd →
          (apply_patches_loop dpd src (dpd ++ ["series"]) names acc).childNames d
            = acc.childNames d) := by
  intro names
  induction names with
  | nil =>
    intro fs0 acc _ _ _
    exact ⟨fun h => absurd rfl h, by simp, fun p _ _ => rfl, rfl, fun d _ => rfl⟩
  | cons n rest ih =>
    intro fs0 acc hnodup hser hacc
    have hnn : n ∉ rest := (List.nodup_cons.mp hnodup).1
    have hnd : rest.Nodup := (List.nodup_cons.mp hnodup).2
    have hns : n ≠ "series" := fun h => hser (h ▸ List.mem_cons_self n rest)
    have hsr : "series" ∉ rest := fun h => hser (List.mem_cons_of_mem _ h)
    have e1 : dpd ++ [n] ≠ dpd ++ ["series"] := concat_ne_of_last_ne dpd hns
    have e2 : ∀ m : String, src ++ [m] ≠ dpd ++ [n] :=
      fun m => concat_ne_of_base_ne m n (Ne.symm hds)
    have e3 : ∀ m : String, src ++ [m] ≠ dpd ++ ["series"] :=
      fun m => concat_ne_of_base_ne m "series" (Ne.symm hds)
    set acc2 := (acc.writeFile (dpd ++ [n]) ((acc.readFile (src ++ [n])).getD "")).appendFile
      (dpd ++ ["series"]) (n ++ "\n") with hacc2
    have hstep : apply_patches_loop dpd src (dpd ++ ["series"]) (n :: rest) acc
        = apply_patches_loop dpd src (dpd ++ ["series"]) rest acc2 := rfl
    have f1 : ∀ m ∈ rest, acc2.readFile (src ++ [m]) = fs0.readFile (src ++ [m]) := by
      intro m hm
      rw [hacc2, readFile_appendFile, if_neg (Ne.symm (e3 m)), readFile_writeFile,
        if_neg (Ne.symm (e2 m))]
      exact hacc m (List.mem_cons_of_mem _ hm)
    have f2 : acc2.readFile (dpd ++ ["series"])
        = some (((acc.readFile (dpd ++ ["series"])).getD "") ++ (n ++ "\n")) := by
      rw [hacc2, readFile_appendFile, if_pos rfl, readFile_writeFile, if_neg e1]
    have f3 : acc2.readFile (dpd ++ [n]) = some ((acc.readFile (src ++ [n])).getD "") := by
      rw [hacc2, readFile_appendFile, if_neg (Ne.symm e1), readFile_writeFile, if_pos rfl]
    have f4 : ∀ p, p ≠ dpd ++ ["series"] → p ≠ dpd ++ [n] →
        acc2.readFile p = acc.readFile p := by
      intro p h1 h2
      rw [hacc2, readFile_appendFile, if_neg (Ne.symm h1), readFile_writeFile, if_neg (Ne.symm h2)]
    have f5 : acc2.dirs = acc.dirs := rfl
    have f6 : ∀ d, d ≠ dpd → acc2.childNames d = acc.childNames d := by
      intro d hd
      rw [hacc2, childNames_appendFile _ _ _ _ (by simpa using Ne.symm hd),
        childNames_writeFile _ _ _ _ (by simpa using Ne.symm hd)]
    obtain ⟨i1, i2, i3, i4, i5⟩ := ih fs0 acc2 hnd hsr f1
    refine ⟨?_, ?_, ?_, ?_, ?_⟩
    · intro _
      rw [hstep]
      cases rest with
      | nil =>
        show acc2.readFile (dpd ++ ["series"]) = _
        rw [f2]
        simp [seriesText, String.append_empty]
      | cons r rs =>
        rw [i1 (List.cons_ne_nil r rs), f2]
        simp [seriesText, String.append_assoc]
    · intro m hm
      by_cases hmn : m = n
      · rw [hmn, hstep,
          i3 (dpd ++ [n]) (concat_ne_of_last_ne dpd hns)
            (fun k hk => concat_ne_of_last_ne dpd (fun he => hnn (he ▸ hk))),
          f3, hacc n (List.mem_cons_self n rest)]
      · rw [hstep]
        exact i2 m ((List.mem_cons.mp hm).resolve_left hmn)
    · intro p h1 h2
      rw [hstep, i3 p h1 (fun m hm => h2 m (List.mem_cons_of_mem _ hm))]
      exact f4 p h1 (h2 n (List.mem_cons_self n rest))
    · rw [hstep, i4, f5]
    · intro d hd
      rw [hstep, i5 d hd, f6 d hd]

/-- Master specification of `apply_patches` on a non-trivial patch
directory: the patches are processed in lexicographically sorted order,
each is copied into `debian/patches`, and their names are appended to
the `series` manifest, one per line. -/
theorem apply_patches_spec (repo patch_dir : FsPath) (fs : FS)
    (hdir : fs.isDir patch_dir = true)
    (hne : fs.childNames patch_dir ≠ [])
    (hnodup : (fs.childNames patch_dir).Nodup)
    (hser : "series" ∉ fs.childNames patch_dir)
    (hdp : repo ++ ["debian", "patches"] ≠ patch_dir) :
    ((apply_patches repo patch_dir fs).readFile (repo ++ ["debian", "patches", "series"])
      = some (((fs.readFile (repo ++ ["debian", "patches", "series"])).getD "")
          ++ seriesText (sortNames (fs.childNames patch_dir))))
    ∧ (∀ n ∈ sortNames (fs.childNames patch_dir),
        (apply_patches repo patch_dir fs).readFile (repo ++ ["debian", "patches"] ++ [n])
          = some ((fs.readFile (patch_dir ++ [n])).getD ""))
    ∧ (apply_patches repo patch_dir fs).isDir patch_dir = true
    ∧ (apply_patches repo patch_dir fs).childNames patch_dir = fs.childNames patch_dir
    ∧ (apply_patches repo patch_dir fs).isDir (repo ++ ["debian", "patches"]) = true := by
  have hperm : List.Perm (sortNames (fs.childNames patch_dir)) (fs.childNames patch_dir) :=
    List.perm_insertionSort _ _
  have hpne : sortNames (fs.childNames patch_dir) ≠ [] := by
    intro h
    exact hne (List.Perm.eq_nil (h ▸ hperm.symm))
  have hpnodup : (sortNames (fs.childNames patch_dir)).Nodup :=
    hperm.nodup_iff.mpr hnodup
  have hpser : "series" ∉ sortNames (fs.childNames patch_dir) :=
    fun h => hser (hperm.mem_iff.mp h)
  have hunfold : apply_patches repo patch_dir fs
      = apply_patches_loop (repo ++ ["debian", "patches"]) patch_dir
          ((repo ++ ["debian", "patches"]) ++ ["series"])
          (sortNames (fs.childNames patch_dir))
          (fs.mkdirParents (repo ++ ["debian", "patches"])) := by
    rw [apply_patches, if_pos hdir, if_neg hpne]
  obtain ⟨i1, i2, i3, i4, i5⟩ := apply_patches_loop_spec (repo ++ ["debian", "patches"])
    patch_dir hdp (sortNames (fs.childNames patch_dir)) fs
    (fs.mkdirParents (repo ++ ["debian", "patches"])) hpnodup hpser
    (fun n _ => readFile_mkdirParents fs _ _)
  have hassoc : (repo ++ ["debian", "patches"]) ++ ["series"]
      = repo ++ ["debian", "patches", "series"] := by simp
  refine ⟨?_, ?_, ?_, ?_, ?_⟩
  · rw [← hassoc, hunfold, i1 hpne, readFile_mkdirParents]
  · intro n hn
    rw [hunfold]
    exact i2 n hn
  · have hd : (apply_patches repo patch_dir fs).dirs
        = (fs.mkdirParents (repo ++ ["debian", "patches"])).dirs := by rw [hunfold, i4]
    show decide (patch_dir ∈ (apply_patches repo patch_dir fs).dirs) = true
    rw [hd]
    exact isDir_mkdirParents_mono fs _ _ hdir
  · rw [hunfold, i5 patch_dir (Ne.symm hdp)]
    exact childNames_mkdirParents fs _ _
  · have hd : (apply_patches repo patch_dir fs).dirs
        = (fs.mkdirParents (repo ++ ["debian", "patches"])).dirs := by rw [hunfold, i4]
    show decide ((repo ++ ["debian", "patches"]) ∈ (apply_patches repo patch_dir fs).dirs) = true
    rw [hd]
    exact isDir_mkdirParents_self fs _ (by simp)

/-! ### Error propagation through the pipeline steps -/

theorem stepClone_err (pkg : Package) (w : World) (s : SRes) :
    (stepClone pkg w s).err = s.err ∨ ∃ c, (stepClone pkg w s).err = some (StepErr.cpe c) := by
  unfold stepClone
  split
  · exact Or.inl rfl
  split
  · exact Or.inl rfl
  split
  · exact Or.inl rfl
  · exact Or.inr ⟨_, rfl⟩

theorem stepCheckout_err (pkg : Package) (w : World) (s : SRes) :
    (stepCheckout pkg w s).err = s.err
      ∨ ∃ c, (stepCheckout pkg w s).err = some (StepErr.cpe c) := by
  unfold stepCheckout
  split
  · exact Or.inl rfl
  split
  · exact Or.inl rfl
  · exact Or.inr ⟨_, rfl⟩

theorem stepHook_err (pkg : Package) (w : World) (s : SRes) :
    (stepHook pkg w s).err = s.err ∨ ∃ c, (stepHook pkg w s).err = some (StepErr.cpe c) := by
  unfold stepHook
  split
  · exact Or.inl rfl
  split
  · exact Or.inl rfl
  split
  · exact Or.inl rfl
  · exact Or.inr ⟨_, rfl⟩

theorem stepPatch_err (pkg : Package) (pd : FsPath) (s : SRes) :
    (stepPatch pkg pd s).err = s.err := by
  unfold stepPatch
  split
  · rfl
  split
  · split
    · rfl
    · rfl
  · rfl

theorem stepArchive_err (pkg : Package) (w : World) (s : SRes) :
    (stepArchive pkg w s).err = s.err
      ∨ ∃ c, (stepArchive pkg w s).err = some (StepErr.cpe c) := by
  unfold stepArchive
  split
  · exact Or.inl rfl
  split
  · exact Or.inl rfl
  · exact Or.inr ⟨_, rfl⟩

theorem stepPrepare_err (pkg : Package) (w : World) (s : SRes) :
    (stepPrepare pkg w s).err = s.err
      ∨ ∃ m, (stepPrepare pkg w s).err = some (StepErr.os m)
          ∧ w.installWriteError = some m := by
  unfold stepPrepare prepare_package
  split
  · exact Or.inl rfl
  next hno =>
  have hs : s.err = none := by
    cases he : s.err
    · rfl
    · exact absurd (by rw [he]; rfl) hno
  split
  · split
    · rw [hs]; exact Or.inl rfl
    · split
      · rw [hs]; exact Or.inl rfl
      · next m heq => exact Or.inr ⟨m, rfl, heq⟩
  · exact Or.inl rfl

theorem stepBuildDeps_err (pkg : Package) (w : World) (s : SRes) :
    (stepBuildDeps pkg w s).err = s.err := by
  unfold stepBuildDeps
  split
  · rfl
  split
  · split
    · split
      · rfl
      · rfl
    · rfl
  · rfl

theorem stepBuild_err (pkg : Package) (w : World) (s : SRes) :
    (stepBuild pkg w s).err = s.err ∨ ∃ c, (stepBuild pkg w s).err = some (StepErr.cpe c) := by
  unfold stepBuild
  split
  · exact Or.inl rfl
  split
  · exact Or.inl rfl
  split
  · exact Or.inl rfl
  · exact Or.inr ⟨_, rfl⟩

/-! ### A raised exception freezes the remaining steps -/

theorem stepClone_frozen (pkg : Package) (w : World) (s : SRes)
    (h : s.err.isSome = true) : stepClone pkg w s = s := by
  unfold stepClone; rw [if_pos h]

theorem stepCheckout_frozen (pkg : Package) (w : World) (s : SRes)
    (h : s.err.isSome = true) : stepCheckout pkg w s = s := by
  unfold stepCheckout; rw [if_pos h]

theorem stepHook_frozen (pkg : Package) (w : World) (s : SRes)
    (h : s.err.isSome = true) : stepHook pkg w s = s := by
  unfold stepHook; rw [if_pos h]

theorem stepPatch_frozen (pkg : Package) (pd : FsPath) (s : SRes)
    (h : s.err.isSome = true) : stepPatch pkg pd s = s := by
  unfold stepPatch; rw [if_pos h]

theorem stepArchive_frozen (pkg : Package) (w : World) (s : SRes)
    (h : s.err.isSome = true) : stepArchive pkg w s = s := by
  unfold stepArchive; rw [if_pos h]

theorem stepPrepare_frozen (pkg : Package) (w : World) (s : SRes)
    (h : s.err.isSome = true) : stepPrepare pkg w s = s := by
  unfold stepPrepare; rw [if_pos h]

theorem stepBuildDeps_frozen (pkg : Package) (w : World) (s : SRes)
    (h : s.err.isSome = true) : stepBuildDeps pkg w s = s := by
  unfold stepBuildDeps; rw [if_pos h]

theorem stepBuild_frozen (pkg : Package) (w : World) (s : SRes)
    (h : s.err.isSome = true) : stepBuild pkg w s = s := by
  unfold stepBuild; rw [if_pos h]

/-- A step that freezes raised errors cannot clear one: an error-free
output state means an error-free input state. -/
theorem err_none_of_step {f : SRes → SRes} (hf : ∀ s, s.err.isSome = true → f s = s)
    (s : SRes) (h : (f s).err = none) : s.err = none := by
  cases he : s.err with
  | none => rfl
  | some e =>
    rw [hf s (by rw [he]; rfl), he] at h
    exact absurd h (by simp)

/-! ### Error preservation of succeeding steps -/

theorem stepClone_err_of (pkg : Package) (w : World) (s : SRes)
    (h : s.fs.pathExists [pkg.name] = true ∨ w.cloneOk = true) :
    (stepClone pkg w s).err = s.err := by
  unfold stepClone
  split
  · rfl
  by_cases hex : s.fs.pathExists [pkg.name] = true
  · rw [if_pos hex]
  · rw [if_neg hex, if_pos (h.resolve_left hex)]

theorem stepCheckout_err_of (pkg : Package) (w : World) (s : SRes)
    (h : w.checkoutOk = true) : (stepCheckout pkg w s).err = s.err := by
  unfold stepCheckout
  split
  · rfl
  · rfl

theorem stepHook_err_of (pkg : Package) (w : World) (s : SRes)
    (h : pkg.pre_build_hook = "" ∨ w.hookOk = true) :
    (stepHook pkg w s).err = s.err := by
  unfold stepHook
  split
  · rfl
  by_cases hhe : pkg.pre_build_hook = ""
  · rw [if_pos hhe]
  · rw [if_neg hhe, if_pos (h.resolve_left hhe)]

theorem stepArchive_err_of (pkg : Package) (w : World) (s : SRes)
    (h : w.tarOk = true) : (stepArchive pkg w s).err = s.err := by
  unfold stepArchive
  split
  · rfl
  · rfl

theorem stepPrepare_err_of (pkg : Package) (w : World) (s : SRes)
    (hos : w.installWriteError = none) : (stepPrepare pkg w s).err = s.err := by
  rcases stepPrepare_err pkg w s with h | ⟨m, _, heq⟩
  · exact h
  · rw [hos] at heq
    exact absurd heq (by simp)

theorem stepBuild_err_of (pkg : Package) (w : World) (s : SRes)
    (h : w.primaryBuildOk = true) : (stepBuild pkg w s).err = s.err := by
  unfold stepBuild
  split
  · rfl
  · rfl

/-! ### Conditions recoverable from an error-free run -/

theorem stepCheckout_none_cond (pkg : Package) (w : World) (s : SRes)
    (h : (stepCheckout pkg w s).err = none) : w.checkoutOk = true := by
  have hs : s.err = none := err_none_of_step (stepCheckout_frozen pkg w) s h
  by_cases hc : w.checkoutOk = true
  · exact hc
  · unfold stepCheckout at h
    rw [if_neg (by rw [hs]; simp), if_neg hc] at h
    simp at h

theorem stepHook_none_cond (pkg : Package) (w : World) (s : SRes)
    (h : (stepHook pkg w s).err = none) :
    pkg.pre_build_hook = "" ∨ w.hookOk = true := by
  have hs : s.err = none := err_none_of_step (stepHook_frozen pkg w) s h
  by_cases hhe : pkg.pre_build_hook = ""
  · exact Or.inl hhe
  by_cases hok : w.hookOk = true
  · exact Or.inr hok
  · unfold stepHook at h
    rw [if_neg (by rw [hs]; simp), if_neg hhe, if_neg hok] at h
    simp at h

theorem stepArchive_none_cond (pkg : Package) (w : World) (s : SRes)
    (h : (stepArchive pkg w s).err = none) : w.tarOk = true := by
  have hs : s.err = none := err_none_of_step (stepArchive_frozen pkg w) s h
  by_cases hc : w.tarOk = true
  · exact hc
  · unfold stepArchive at h
    rw [if_neg (by rw [hs]; simp), if_neg hc] at h
    simp at h

theorem stepBuild_none_cond (pkg : Package) (w : World) (s : SRes)
    (h : (stepBuild pkg w s).err = none) :
    w.primaryBuildOk = true ∨ w.fallbackBuildOk = true := by
  have hs : s.err = none := err_none_of_step (stepBuild_frozen pkg w) s h
  by_cases hp : w.primaryBuildOk = true
  · exact Or.inl hp
  by_cases hf : w.fallbackBuildOk = true
  · exact Or.inr hf
  · unfold stepBuild at h
    rw [if_neg (by rw [hs]; simp), if_neg hp, if_neg hf] at h
    simp at h

/-! ### Build-command bookkeeping of each step -/

theorem stepClone_cmds (pkg : Package) (w : World) (s : SRes) :
    buildCmds ((stepClone pkg w s).evs) = buildCmds s.evs := by
  unfold stepClone
  repeat' split
  all_goals simp [buildCmds, List.filterMap_append]

theorem stepCheckout_cmds (pkg : Package) (w : World) (s : SRes) :
    buildCmds ((stepCheckout pkg w s).evs) = buildCmds s.evs := by
  unfold stepCheckout
  repeat' split
  all_goals simp [buildCmds, List.filterMap_append]

theorem stepHook_cmds (pkg : Package) (w : World) (s : SRes) :
    buildCmds ((stepHook pkg w s).evs) = buildCmds s.evs := by
  unfold stepHook
  repeat' split
  all_goals simp [buildCmds, List.filterMap_append]

theorem stepPatch_cmds (pkg : Package) (pd : FsPath) (s : SRes) :
    buildCmds ((stepPatch pkg pd s).evs) = buildCmds s.evs := by
  unfold stepPatch
  repeat' split
  all_goals simp [buildCmds, List.filterMap_append]

theorem stepArchive_cmds (pkg : Package) (w : World) (s : SRes) :
    buildCmds ((stepArchive pkg w s).evs) = buildCmds s.evs := by
  unfold stepArchive
  repeat' split
  all_goals simp [buildCmds, List.filterMap_append]

theorem stepPrepare_cmds (pkg : Package) (w : World) (s : SRes) :
    buildCmds ((stepPrepare pkg w s).evs) = buildCmds s.evs := by
  unfold stepPrepare prepare_package
  repeat' split
  all_goals simp [buildCmds, List.filterMap_append]

theorem stepBuildDeps_cmds (pkg : Package) (w : World) (s : SRes) :
    buildCmds ((stepBuildDeps pkg w s).evs) = buildCmds s.evs := by
  unfold stepBuildDeps
  repeat' split
  all_goals simp [buildCmds, List.filterMap_append]

theorem stepBuild_cmds_primary_ok (pkg : Package) (w : World) (s : SRes)
    (hs : s.err = none) (hp : w.primaryBuildOk = true) :
    buildCmds ((stepBuild pkg w s).evs)
      = buildCmds s.evs ++ [pkg.build_cmd.getD defaultBuildCmdFull] := by
  unfold stepBuild
  rw [if_neg (by rw [hs]; simp), if_pos hp]
  simp [buildCmds, List.filterMap_append]

theorem stepBuild_cmds_primary_fail (pkg : Package) (w : World) (s : SRes)
    (hs : s.err = none) (hp : w.primaryBuildOk = false) :
    buildCmds ((stepBuild pkg w s).evs)
      = buildCmds s.evs
          ++ [pkg.build_cmd.getD defaultBuildCmdFull, pkg.build_cmd.getD defaultBuildCmdBin] := by
  unfold stepBuild
  rw [if_neg (by rw [hs]; simp), if_neg (by rw [hp]; simp)]
  by_cases hf : w.fallbackBuildOk = true
  · rw [if_pos hf]; simp [buildCmds, List.filterMap_append]
  · rw [if_neg hf]; simp [buildCmds, List.filterMap_append]

theorem stepBuild_attempts_le (pkg : Package) (w : World) (s : SRes) :
    buildAttempts ((stepBuild pkg w s).evs) ≤ buildAttempts s.evs + 2 := by
  unfold stepBuild buildAttempts
  repeat' split
  all_goals simp [buildCmds, List.filterMap_append]

/-! ### No step except the dependency installer and the outer handler
prints a `Failed to build package` line -/

theorem stepClone_noFail (pkg : Package) (w : World) (s : SRes)
    (h : ∀ n c, Event.failLog n c ∉ s.evs) :
    ∀ n c, Event.failLog n c ∉ (stepClone pkg w s).evs := by
  intro n c
  unfold stepClone
  repeat' split
  all_goals simp [List.mem_append, h n c]

theorem stepCheckout_noFail (pkg : Package) (w : World) (s : SRes)
    (h : ∀ n c, Event.failLog n c ∉ s.evs) :
    ∀ n c, Event.failLog n c ∉ (stepCheckout pkg w s).evs := by
  intro n c
  unfold stepCheckout
  repeat' split
  all_goals simp [List.mem_append, h n c]

theorem stepHook_noFail (pkg : Package) (w : World) (s : SRes)
    (h : ∀ n c, Event.failLog n c ∉ s.evs) :
    ∀ n c, Event.failLog n c ∉ (stepHook pkg w s).evs := by
  intro n c
  unfold stepHook
  repeat' split
  all_goals simp [List.mem_append, h n c]

theorem stepPatch_noFail (pkg : Package) (pd : FsPath) (s : SRes)
    (h : ∀ n c, Event.failLog n c ∉ s.evs) :
    ∀ n c, Event.failLog n c ∉ (stepPatch pkg pd s).evs := by
  intro n c
  unfold stepPatch
  repeat' split
  all_goals simp [List.mem_append, h n c]

theorem stepArchive_noFail (pkg : Package) (w : World) (s : SRes)
    (h : ∀ n c, Event.failLog n c ∉ s.evs) :
    ∀ n c, Event.failLog n c ∉ (stepArchive pkg w s).evs := by
  intro n c
  unfold stepArchive
  repeat' split
  all_goals simp [List.mem_append, h n c]

theorem stepPrepare_noFail (pkg : Package) (w : World) (s : SRes)
    (h : ∀ n c, Event.failLog n c ∉ s.evs) :
    ∀ n c, Event.failLog n c ∉ (stepPrepare pkg w s).evs := by
  intro n c
  unfold stepPrepare prepare_package
  repeat' split
  all_goals simp [List.mem_append, h n c]

theorem stepBuildDeps_noFail (pkg : Package) (w : World) (s : SRes)
    (hmk : w.mkBuildDepsOk = true) (hdpk : w.dpkgInstallOk = true)
    (h : ∀ n c, Event.failLog n c ∉ s.evs) :
    ∀ n c, Event.failLog n c ∉ (stepBuildDeps pkg w s).evs := by
  intro n c
  unfold stepBuildDeps
  repeat' split
  all_goals simp_all [List.mem_append]

theorem stepBuild_noFail (pkg : Package) (w : World) (s : SRes)
    (h : ∀ n c, Event.failLog n c ∉ s.evs) :
    ∀ n c, Event.failLog n c ∉ (stepBuild pkg w s).evs := by
  intro n c
  unfold stepBuild
  repeat' split
  all_goals simp [List.mem_append, h n c]

/-! ### With `apply_patches = false` no step invokes the Patch Applier -/

theorem stepClone_noInvoke (pkg : Package) (w : World) (s : SRes)
    (h : ∀ r p, Event.invokedApplyPatches r p ∉ s.evs) :
    ∀ r p, Event.invokedApplyPatches r p ∉ (stepClone pkg w s).evs := by
  intro r p
  unfold stepClone
  repeat' split
  all_goals simp [List.mem_append, h r p]

theorem stepCheckout_noInvoke (pkg : Package) (w : World) (s : SRes)
    (h : ∀ r p, Event.invokedApplyPatches r p ∉ s.evs) :
    ∀ r p, Event.invokedApplyPatches r p ∉ (stepCheckout pkg w s).evs := by
  intro r p
  unfold stepCheckout
  repeat' split
  all_goals simp [List.mem_append, h r p]

theorem stepHook_noInvoke (pkg : Package) (w : World) (s : SRes)
    (h : ∀ r p, Event.invokedApplyPatches r p ∉ s.evs) :
    ∀ r p, Event.invokedApplyPatches r p ∉ (stepHook pkg w s).evs := by
  intro r p
  unfold stepHook
  repeat' split
  all_goals simp [List.mem_append, h r p]

theorem stepPatch_noInvoke (pkg : Package) (pd : FsPath) (s : SRes)
    (hap : pkg.apply_patches = some false)
    (h : ∀ r p, Event.invokedApplyPatches r p ∉ s.evs) :
    ∀ r p, Event.invokedApplyPatches r p ∉ (stepPatch pkg pd s).evs := by
  intro r p
  have hap2 : pkg.applyPatches = false := by simp [Package.applyPatches, hap]
  unfold stepPatch
  split
  · exact h r p
  · rw [if_neg (by rw [hap2]; simp)]
    exact h r p

theorem stepArchive_noInvoke (pkg : Package) (w : World) (s : SRes)
    (h : ∀ r p, Event.invokedApplyPatches r p ∉ s.evs) :
    ∀ r p, Event.invokedApplyPatches r p ∉ (stepArchive pkg w s).evs := by
  intro r p
  unfold stepArchive
  repeat' split
  all_goals simp [List.mem_append, h r p]

theorem stepPrepare_noInvoke (pkg : Package) (w : World) (s : SRes)
    (h : ∀ r p, Event.invokedApplyPatches r p ∉ s.evs) :
    ∀ r p, Event.invokedApplyPatches r p ∉ (stepPrepare pkg w s).evs := by
  intro r p
  unfold stepPrepare prepare_package
  repeat' split
  all_goals simp [List.mem_append, h r p]

theorem stepBuildDeps_noInvoke (pkg : Package) (w : World) (s : SRes)
    (h : ∀ r p, Event.invokedApplyPatches r p ∉ s.evs) :
    ∀ r p, Event.invokedApplyPatches r p ∉ (stepBuildDeps pkg w s).evs := by
  intro r p
  unfold stepBuildDeps
  repeat' split
  all_goals simp [List.mem_append, h r p]

theorem stepBuild_noInvoke (pkg : Package) (w : World) (s : SRes)
    (h : ∀ r p, Event.invokedApplyPatches r p ∉ s.evs) :
    ∀ r p, Event.invokedApplyPatches r p ∉ (stepBuild pkg w s).evs := by
  intro r p
  unfold stepBuild
  repeat' split
  all_goals simp [List.mem_append, h r p]

/-! ### Recorded events are never dropped by a later step -/

theorem stepPrepare_mem (pkg : Package) (w : World) (s : SRes) (e : Event)
    (h : e ∈ s.evs) : e ∈ (stepPrepare pkg w s).evs := by
  unfold stepPrepare prepare_package
  repeat' split
  all_goals simp [List.mem_append, h]

theorem stepBuildDeps_mem (pkg : Package) (w : World) (s : SRes) (e : Event)
    (h : e ∈ s.evs) : e ∈ (stepBuildDeps pkg w s).evs := by
  unfold stepBuildDeps
  repeat' split
  all_goals simp [List.mem_append, h]

theorem stepBuild_mem (pkg : Package) (w : World) (s : SRes) (e : Event)
    (h : e ∈ s.evs) : e ∈ (stepBuild pkg w s).evs := by
  unfold stepBuild
  repeat' split
  all_goals simp [List.mem_append, h]

theorem stepArchive_tar_mem (pkg : Package) (w : World) (s : SRes)
    (hs : s.err = none) :
    Event.ranTar (tarball_name pkg) ∈ (stepArchive pkg w s).evs := by
  unfold stepArchive
  rw [if_neg (by rw [hs]; simp)]
  by_cases ht : w.tarOk = true
  · rw [if_pos ht]; simp
  · rw [if_neg ht]; simp

/-! ### The `except CalledProcessError` wrapper of `build_package` -/

theorem build_package_shape (pkg : Package) (pd : FsPath) (w : World) (fs : FS) (r : SRes)
    (hr : build_package_try pkg pd w fs = r) :
    build_package pkg pd w fs =
      match r.err with
      | none => Except.ok (r.evs, r.fs)
      | some (StepErr.cpe c) => Except.ok (r.evs ++ [Event.failLog pkg.name c], r.fs)
      | some (StepErr.os m) => Except.error (m, r.evs, r.fs) := by
  unfold build_package
  rw [hr]

theorem build_package_of_none (pkg : Package) (pd : FsPath) (w : World) (fs : FS)
    (h : (build_package_try pkg pd w fs).err = none) :
    build_package pkg pd w fs
      = Except.ok ((build_package_try pkg pd w fs).evs, (build_package_try pkg pd w fs).fs) := by
  rw [build_package_shape pkg pd w fs _ rfl, h]

theorem build_package_of_cpe (pkg : Package) (pd : FsPath) (w : World) (fs : FS) (c : String)
    (h : (build_package_try pkg pd w fs).err = some (StepErr.cpe c)) :
    build_package pkg pd w fs
      = Except.ok ((build_package_try pkg pd w fs).evs ++ [Event.failLog pkg.name c],
          (build_package_try pkg pd w fs).fs) := by
  rw [build_package_shape pkg pd w fs _ rfl, h]

theorem build_package_of_os (pkg : Package) (pd : FsPath) (w : World) (fs : FS) (m : String)
    (h : (build_package_try pkg pd w fs).err = some (StepErr.os m)) :
    build_package pkg pd w fs
      = Except.error (m, (build_package_try pkg pd w fs).evs, (build_package_try pkg pd w fs).fs) := by
  rw [build_package_shape pkg pd w fs _ rfl, h]

/-! ### Composed facts about the whole `try:` body -/

/-- Classification of the exception in flight: none, a
`CalledProcessError`, or the `OSError` injected by the oracle. -/
def errClass (w : World) (e : Option StepErr) : Prop :=
  e = none ∨ (∃ c, e = some (StepErr.cpe c))
    ∨ (∃ m, e = some (StepErr.os m) ∧ w.installWriteError = some m)

theorem errClass_step {w : World} {s s2 : SRes}
    (hshape : s2.err = s.err ∨ ∃ c, s2.err = some (StepErr.cpe c))
    (h : errClass w s.err) : errClass w s2.err := by
  rcases hshape with he | ⟨c, he⟩
  · rw [he]; exact h
  · exact Or.inr (Or.inl ⟨c, he⟩)

theorem errClass_stepPrepare {w : World} {pkg : Package} {s : SRes}
    (h : errClass w s.err) : errClass w (stepPrepare pkg w s).err := by
  rcases stepPrepare_err pkg w s with he | ⟨m, he, hw⟩
  · rw [he]; exact h
  · exact Or.inr (Or.inr ⟨m, he, hw⟩)

/-- The only exception that can escape the `try:` body other than a
`CalledProcessError` is the `OSError` of `prepare_package`. -/
theorem try_err_shape (pkg : Package) (pd : FsPath) (w : World) (fs : FS) :
    errClass w (build_package_try pkg pd w fs).err := by
  unfold build_package_try
  exact errClass_step (stepBuild_err _ _ _)
    (errClass_step (Or.inl (stepBuildDeps_err _ _ _))
      (errClass_stepPrepare
        (errClass_step (stepArchive_err _ _ _)
          (errClass_step (Or.inl (stepPatch_err _ _ _))
            (errClass_step (stepHook_err _ _ _)
              (errClass_step (stepCheckout_err _ _ _)
                (errClass_step (stepClone_err _ _ _) (Or.inl rfl))))))))

/-- If the whole body ran without an exception, every fallible step
succeeded. -/
theorem try_none_conditions (pkg : Package) (pd : FsPath) (w : World) (fs : FS)
    (h : (build_package_try pkg pd w fs).err = none) :
    w.checkoutOk = true ∧ (pkg.pre_build_hook = "" ∨ w.hookOk = true) ∧ w.tarOk = true
      ∧ (w.primaryBuildOk = true ∨ w.fallbackBuildOk = true) := by
  unfold build_package_try at h
  set s0 : SRes := { fs := fs, evs := [], err := none } with hs0
  set sA := stepClone pkg w s0 with hA
  set sB := stepCheckout pkg w sA with hB
  set sC := stepHook pkg w sB with hC
  set sD := stepPatch pkg pd sC with hD
  set sE := stepArchive pkg w sD with hE
  set sF := stepPrepare pkg w sE with hF
  set sG := stepBuildDeps pkg w sF with hG
  have hcond4 := stepBuild_none_cond pkg w sG h
  have h7 : sG.err = none := err_none_of_step (stepBuild_frozen pkg w) sG h
  rw [hG] at h7
  have h6 : sF.err = none := err_none_of_step (stepBuildDeps_frozen pkg w) sF h7
  rw [hF] at h6
  have h5 : sE.err = none := err_none_of_step (stepPrepare_frozen pkg w) sE h6
  rw [hE] at h5
  have hcond3 := stepArchive_none_cond pkg w sD h5
  have h4 : sD.err = none := err_none_of_step (stepArchive_frozen pkg w) sD h5
  rw [hD] at h4
  rw [stepPatch_err pkg pd sC] at h4
  rw [hC] at h4
  have hcond2 := stepHook_none_cond pkg w sB h4
  have h2 : sB.err = none := err_none_of_step (stepHook_frozen pkg w) sB h4
  rw [hB] at h2
  have hcond1 := stepCheckout_none_cond pkg w sA h2
  exact ⟨hcond1, hcond2, hcond3, hcond4⟩

/-- A job with one of the `CalledProcessError` failure modes (and no
injected filesystem error) necessarily leaves the `try:` body with a
`CalledProcessError` in flight. -/
theorem try_err_forced (pkg : Package) (pd : FsPath) (w : World) (fs : FS)
    (hos : w.installWriteError = none) (hfail : cpeFailure pkg w) :
    ∃ c, (build_package_try pkg pd w fs).err = some (StepErr.cpe c) := by
  rcases try_err_shape pkg pd w fs with hnone | hcpe | ⟨m, _, hw⟩
  · exfalso
    obtain ⟨hco, hhook, htar, hbuild⟩ := try_none_conditions pkg pd w fs hnone
    rcases hfail with h | ⟨hne, h⟩ | h | ⟨h1, h2⟩
    · rw [hco] at h; simp at h
    · rcases hhook with he | hok
      · exact hne he
      · rw [hok] at h; simp at h
    · rw [htar] at h; simp at h
    · rcases hbuild with hp | hf
      · rw [hp] at h1; simp at h1
      · rw [hf] at h2; simp at h2
  · exact hcpe
  · rw [hos] at hw
    simp at hw

/-- Without an injected filesystem error, `build_package` always
returns normally: `CalledProcessError` failures are contained. -/
theorem build_package_no_error (pkg : Package) (pd : FsPath) (w : World) (fs : FS)
    (hos : w.installWriteError = none) :
    ∃ evs fs2, build_package pkg pd w fs = Except.ok (evs, fs2) := by
  rcases try_err_shape pkg pd w fs with hnone | ⟨c, hcpe⟩ | ⟨m, _, hw⟩
  · exact ⟨_, _, build_package_of_none pkg pd w fs hnone⟩
  · exact ⟨_, _, build_package_of_cpe pkg pd w fs c hcpe⟩
  · rw [hos] at hw
    simp at hw

/-- When clone, checkout, hook, archive and prepare succeed, the body
is exactly `stepBuild` applied to a state with no build attempts (and,
when the build-dependency commands succeed, no failure log line). -/
theorem try_reached (pkg : Package) (pd : FsPath) (w : World) (fs : FS)
    (hclone : fs.pathExists [pkg.name] = true ∨ w.cloneOk = true)
    (hco : w.checkoutOk = true)
    (hhook : pkg.pre_build_hook = "" ∨ w.hookOk = true)
    (htar : w.tarOk = true)
    (hos : w.installWriteError = none) :
    ∃ s : SRes, s.err = none
      ∧ build_package_try pkg pd w fs = stepBuild pkg w s
      ∧ buildCmds s.evs = []
      ∧ ((w.mkBuildDepsOk = true ∧ w.dpkgInstallOk = true) →
          ∀ n c, Event.failLog n c ∉ s.evs) := by
  unfold build_package_try
  set s0 : SRes := { fs := fs, evs := [], err := none } with hs0
  set sA := stepClone pkg w s0 with hA
  set sB := stepCheckout pkg w sA with hB
  set sC := stepHook pkg w sB with hC
  set sD := stepPatch pkg pd sC with hD
  set sE := stepArchive pkg w sD with hE
  set sF := stepPrepare pkg w sE with hF
  set sG := stepBuildDeps pkg w sF with hG
  have eA : sA.err = none := by
    rw [hA, stepClone_err_of pkg w s0 (by rw [hs0]; exact hclone), hs0]
  have eB : sB.err = none := by rw [hB, stepCheckout_err_of pkg w sA hco]; exact eA
  have eC : sC.err = none := by rw [hC, stepHook_err_of pkg w sB hhook]; exact eB
  have eD : sD.err = none := by rw [hD, stepPatch_err pkg pd sC]; exact eC
  have eE : sE.err = none := by rw [hE, stepArchive_err_of pkg w sD htar]; exact eD
  have eF : sF.err = none := by rw [hF, stepPrepare_err_of pkg w sE hos]; exact eE
  have eG : sG.err = none := by rw [hG, stepBuildDeps_err pkg w sF]; exact eF
  have cA : buildCmds sA.evs = [] := by rw [hA, stepClone_cmds pkg w s0, hs0]; rfl
  have cB : buildCmds sB.evs = [] := by rw [hB, stepCheckout_cmds pkg w sA]; exact cA
  have cC : buildCmds sC.evs = [] := by rw [hC, stepHook_cmds pkg w sB]; exact cB
  have cD : buildCmds sD.evs = [] := by rw [hD, stepPatch_cmds pkg pd sC]; exact cC
  have cE : buildCmds sE.evs = [] := by rw [hE, stepArchive_cmds pkg w sD]; exact cD
  have cF : buildCmds sF.evs = [] := by rw [hF, stepPrepare_cmds pkg w sE]; exact cE
  have cG : buildCmds sG.evs = [] := by rw [hG, stepBuildDeps_cmds pkg w sF]; exact cF
  refine ⟨sG, eG, rfl, cG, fun hdeps => ?_⟩
  have fA : ∀ n c, Event.failLog n c ∉ sA.evs := by
    rw [hA]
    apply stepClone_noFail
    intro n c
    rw [hs0]
    simp
  have fB : ∀ n c, Event.failLog n c ∉ sB.evs := by
    rw [hB]; exact stepCheckout_noFail pkg w sA fA
  have fC : ∀ n c, Event.failLog n c ∉ sC.evs := by
    rw [hC]; exact stepHook_noFail pkg w sB fB
  have fD : ∀ n c, Event.failLog n c ∉ sD.evs := by
    rw [hD]; exact stepPatch_noFail pkg pd sC fC
  have fE : ∀ n c, Event.failLog n c ∉ sE.evs := by
    rw [hE]; exact stepArchive_noFail pkg w sD fD
  have fF : ∀ n c, Event.failLog n c ∉ sF.evs := by
    rw [hF]; exact stepPrepare_noFail pkg w sE fE
  intro n c
  rw [hG]
  exact stepBuildDeps_noFail pkg w sF hdeps.1 hdeps.2 fF n c

/-- No run of `build_package` ever attempts a build command more than
twice. -/
theorem buildAttempts_le_two (pkg : Package) (pd : FsPath) (w : World) (fs : FS) :
    buildAttempts (resultEvents (build_package pkg pd w fs)) ≤ 2 := by
  have hpre : buildCmds ((stepBuildDeps pkg w (stepPrepare pkg w (stepArchive pkg w
      (stepPatch pkg pd (stepHook pkg w (stepCheckout pkg w
        (stepClone pkg w { fs := fs, evs := [], err := none }))))))).evs) = [] := by
    rw [stepBuildDeps_cmds, stepPrepare_cmds, stepArchive_cmds, stepPatch_cmds,
      stepHook_cmds, stepCheckout_cmds, stepClone_cmds]
    rfl
  have htry : buildAttempts ((build_package_try pkg pd w fs).evs) ≤ 2 := by
    have hle := stepBuild_attempts_le pkg w (stepBuildDeps pkg w (stepPrepare pkg w
      (stepArchive pkg w (stepPatch pkg pd (stepHook pkg w (stepCheckout pkg w
        (stepClone pkg w { fs := fs, evs := [], err := none })))))))
    have hz : buildAttempts ((stepBuildDeps pkg w (stepPrepare pkg w (stepArchive pkg w
        (stepPatch pkg pd (stepHook pkg w (stepCheckout pkg w
          (stepClone pkg w { fs := fs, evs := [], err := none }))))))).evs) = 0 := by
      unfold buildAttempts
      rw [hpre]
      rfl
    unfold build_package_try
    omega
  rcases try_err_shape pkg pd w fs with hnone | ⟨c, hcpe⟩ | ⟨m, hos, _⟩
  · rw [build_package_of_none pkg pd w fs hnone]
    exact htry
  · rw [build_package_of_cpe pkg pd w fs c hcpe]
    have heq : buildCmds ((build_package_try pkg pd w fs).evs ++ [Event.failLog pkg.name c])
        = buildCmds ((build_package_try pkg pd w fs).evs) := by
      simp [buildCmds, List.filterMap_append]
    show buildAttempts ((build_package_try pkg pd w fs).evs ++ [Event.failLog pkg.name c]) ≤ 2
    unfold buildAttempts at htry ⊢
    rw [heq]
    exact htry
  · rw [build_package_of_os pkg pd w fs m hos]
    exact htry

/-! ### The job loop -/

theorem process_packages_cons (pkg : Package) (w : World) (rest : List (Package × World))
    (pd : FsPath) (fs : FS) :
    process_packages ((pkg, w) :: rest) pd fs =
      match build_package pkg pd w fs with
      | Except.error (m, evs, _) => Except.error (m, [evs])
      | Except.ok (evs, fs1) => afterJob evs (process_packages rest pd fs1) := rfl


/-- Every job of a run without injected filesystem errors completes:
one per-job log each, ending in the artifact-collection steps. -/
theorem process_packages_all_ok :
    ∀ (jobs : List (Package × World)) (pd : FsPath) (fs : FS),
      (∀ pw ∈ jobs, pw.2.installWriteError = none) →
      ∃ logs fs2, process_packages jobs pd fs = Except.ok (logs, fs2)
        ∧ logs.length = jobs.length
        ∧ ∀ l ∈ logs, Event.ranCopyPackages ∈ l := by
  intro jobs
  induction jobs with
  | nil =>
    intro pd fs _
    exact ⟨[], fs, rfl, rfl, by simp⟩
  | cons j rest ih =>
    intro pd fs hall
    obtain ⟨pkg, w⟩ := j
    obtain ⟨evs, fs1, hj⟩ :=
      build_package_no_error pkg pd w fs (hall (pkg, w) (List.mem_cons_self _ rest))
    obtain ⟨logs, fs2, hrest, hlen, hcopy⟩ :=
      ih pd fs1 (fun pw hpw => hall pw (List.mem_cons_of_mem _ hpw))
    refine ⟨(evs ++ [Event.ranCleanupBuildDeps, Event.ranCopyPackages]) :: logs, fs2, ?_, ?_, ?_⟩
    · rw [process_packages_cons, hj]
      show afterJob evs (process_packages rest pd fs1) = _
      rw [hrest]
      rfl
    · simp [hlen]
    · intro l hl
      rcases List.mem_cons.mp hl with rfl | h2
      · simp
      · exact hcopy l h2

/-- A job hitting a `CalledProcessError` failure mode is contained: the
loop still runs every job, and the failing job's log holds the
`Failed to build package` line. -/
theorem process_packages_contained :
    ∀ (pre : List (Package × World)) (pkg : Package) (w : World)
      (post : List (Package × World)) (pd : FsPath) (fs : FS),
      (∀ pw ∈ pre ++ (pkg, w) :: post, pw.2.installWriteError = none) →
      cpeFailure pkg w →
      ∃ logs fs2, process_packages (pre ++ (pkg, w) :: post) pd fs = Except.ok (logs, fs2)
        ∧ logs.length = pre.length + 1 + post.length
        ∧ (∃ l c, logs[pre.length]? = some l ∧ Event.failLog pkg.name c ∈ l
            ∧ Event.ranCopyPackages ∈ l)
        ∧ ∀ l ∈ logs, Event.ranCopyPackages ∈ l := by
  intro pre
  induction pre with
  | nil =>
    intro pkg w post pd fs hall hfail
    obtain ⟨c, hcpe⟩ := try_err_forced pkg pd w fs
      (hall (pkg, w) (by simp)) hfail
    have hbp := build_package_of_cpe pkg pd w fs c hcpe
    obtain ⟨logs, fs2, hrest, hlen, hcopy⟩ :=
      process_packages_all_ok post pd (build_package_try pkg pd w fs).fs
        (fun pw hpw => hall pw (by simp [hpw]))
    refine ⟨(((build_package_try pkg pd w fs).evs ++ [Event.failLog pkg.name c])
        ++ [Event.ranCleanupBuildDeps, Event.ranCopyPackages]) :: logs, fs2, ?_, ?_, ?_, ?_⟩
    · show process_packages ((pkg, w) :: post) pd fs = _
      rw [process_packages_cons, hbp]
      show afterJob _ (process_packages post pd (build_package_try pkg pd w fs).fs) = _
      rw [hrest]
      rfl
    · simp [hlen]
      omega
    · refine ⟨(build_package_try pkg pd w fs).evs ++ [Event.failLog pkg.name c]
          ++ [Event.ranCleanupBuildDeps, Event.ranCopyPackages], c, ?_, ?_, ?_⟩
      · simp
      · simp
      · simp
    · intro l hl
      rcases List.mem_cons.mp hl with rfl | h2
      · simp
      · exact hcopy l h2
  | cons j pre ih =>
    intro pkg w post pd fs hall hfail
    obtain ⟨pkg0, w0⟩ := j
    obtain ⟨evs, fs1, hj⟩ :=
      build_package_no_error pkg0 pd w0 fs (hall (pkg0, w0) (by simp))
    obtain ⟨logs, fs2, hrest, hlen, hidx, hcopy⟩ :=
      ih pkg w post pd fs1 (fun pw hpw => hall pw (by simp at hpw ⊢; tauto)) hfail
    refine ⟨(evs ++ [Event.ranCleanupBuildDeps, Event.ranCopyPackages]) :: logs, fs2, ?_, ?_, ?_, ?_⟩
    · show process_packages ((pkg0, w0) :: (pre ++ (pkg, w) :: post)) pd fs = _
      rw [process_packages_cons, hj]
      show afterJob evs (process_packages (pre ++ (pkg, w) :: post) pd fs1) = _
      rw [hrest]
      rfl
    · simp [hlen]
      omega
    · obtain ⟨l, c, hl, hmem, hcp⟩ := hidx
      refine ⟨l, c, ?_, hmem, hcp⟩
      simpa using hl
    · intro l hl
      rcases List.mem_cons.mp hl with rfl | h2
      · simp
      · exact hcopy l h2

/-! ### The uncontained `prepare_package` failure -/

theorem getLast?_cons_ne {α : Type} (a : α) {l : List α} (h : l ≠ []) :
    (a :: l).getLast? = l.getLast? := by
  cases l with
  | nil => exact absurd rfl h
  | cons b bs => exact List.getLast?_cons_cons

/-- `prepare_package` hits the injected filesystem error: it logs the
failure and re-raises it as an `OSError`. -/
theorem stepPrepare_os (pkg : Package) (w : World) (s : SRes) (m : String)
    (hs : s.err = none) (hprep : pkg.prepare_package = some true)
    (hdata : pkg.install_data ≠ "") (herr : w.installWriteError = some m) :
    (stepPrepare pkg w s).err = some (StepErr.os m)
    ∧ Event.log ("Failed to prepare package: " ++ m) ∈ (stepPrepare pkg w s).evs := by
  have hpp : pkg.preparePackage = true := by simp [Package.preparePackage, hprep]
  unfold stepPrepare prepare_package
  rw [if_neg (by rw [hs]; simp), if_pos hpp, if_neg hdata, herr]
  exact ⟨rfl, by simp⟩

/-- When the job reaches PREPARE and the install-manifest write fails,
`build_package` does not catch the exception: it returns the error,
which was logged by `prepare_package` before re-raising. -/
theorem build_package_prepare_error (pkg : Package) (pd : FsPath) (w : World) (fs : FS)
    (m : String)
    (hclone : w.cloneOk = true) (hco : w.checkoutOk = true)
    (hhook : pkg.pre_build_hook = "" ∨ w.hookOk = true) (htar : w.tarOk = true)
    (hprep : pkg.prepare_package = some true) (hdata : pkg.install_data ≠ "")
    (herr : w.installWriteError = some m) :
    ∃ evs fsx, build_package pkg pd w fs = Except.error (m, evs, fsx)
      ∧ Event.log ("Failed to prepare package: " ++ m) ∈ evs := by
  have key : (build_package_try pkg pd w fs).err = some (StepErr.os m)
      ∧ Event.log ("Failed to prepare package: " ++ m) ∈ (build_package_try pkg pd w fs).evs := by
    unfold build_package_try
    set s0 : SRes := { fs := fs, evs := [], err := none } with hs0
    set sA := stepClone pkg w s0 with hA
    set sB := stepCheckout pkg w sA with hB
    set sC := stepHook pkg w sB with hC
    set sD := stepPatch pkg pd sC with hD
    set sE := stepArchive pkg w sD with hE
    have eA : sA.err = none := by
      rw [hA, stepClone_err_of pkg w s0 (Or.inr hclone), hs0]
    have eB : sB.err = none := by rw [hB, stepCheckout_err_of pkg w sA hco]; exact eA
    have eC : sC.err = none := by rw [hC, stepHook_err_of pkg w sB hhook]; exact eB
    have eD : sD.err = none := by rw [hD, stepPatch_err pkg pd sC]; exact eC
    have eE : sE.err = none := by rw [hE, stepArchive_err_of pkg w sD htar]; exact eD
    obtain ⟨hosE, hmemE⟩ := stepPrepare_os pkg w sE m eE hprep hdata herr
    have hsome : (stepPrepare pkg w sE).err.isSome = true := by rw [hosE]; rfl
    rw [stepBuildDeps_frozen pkg w _ hsome, stepBuild_frozen pkg w _ hsome]
    exact ⟨hosE, hmemE⟩
  exact ⟨_, _, build_package_of_os pkg pd w fs m key.1, key.2⟩

/-- An uncaught `prepare_package` failure aborts the whole run: the
loop returns the error after the failing job, whatever jobs follow. -/
theorem process_packages_abort :
    ∀ (pre : List (Package × World)) (pkg : Package) (w : World) (pd : FsPath) (fs : FS)
      (m : String),
      (∀ pw ∈ pre, pw.2.installWriteError = none) →
      w.cloneOk = true → w.checkoutOk = true →
      (pkg.pre_build_hook = "" ∨ w.hookOk = true) → w.tarOk = true →
      pkg.prepare_package = some true → pkg.install_data ≠ "" →
      w.installWriteError = some m →
      ∃ logs, (∀ post, process_packages (pre ++ (pkg, w) :: post) pd fs
            = Except.error (m, logs))
        ∧ logs.length = pre.length + 1
        ∧ ∃ l, logs.getLast? = some l
            ∧ Event.log ("Failed to prepare package: " ++ m) ∈ l := by
  intro pre
  induction pre with
  | nil =>
    intro pkg w pd fs m _ hclone hco hhook htar hprep hdata herr
    obtain ⟨evs, fsx, hbp, hmem⟩ :=
      build_package_prepare_error pkg pd w fs m hclone hco hhook htar hprep hdata herr
    refine ⟨[evs], ?_, rfl, evs, rfl, hmem⟩
    intro post
    show process_packages ((pkg, w) :: post) pd fs = _
    rw [process_packages_cons, hbp]
  | cons j pre ih =>
    intro pkg w pd fs m hall hclone hco hhook htar hprep hdata herr
    obtain ⟨pkg0, w0⟩ := j
    obtain ⟨evs, fs1, hj⟩ :=
      build_package_no_error pkg0 pd w0 fs (hall (pkg0, w0) (by simp))
    obtain ⟨logs, habort, hlen, l, hlast, hmem⟩ :=
      ih pkg w pd fs1 m (fun pw hpw => hall pw (by simp [hpw]))
        hclone hco hhook htar hprep hdata herr
    have hne : logs ≠ [] := by
      intro h
      rw [h] at hlen
      simp at hlen
    refine ⟨(evs ++ [Event.ranCleanupBuildDeps, Event.ranCopyPackages]) :: logs, ?_, ?_, ?_⟩
    · intro post
      show process_packages ((pkg0, w0) :: (pre ++ (pkg, w) :: post)) pd fs = _
      rw [process_packages_cons, hj]
      show afterJob evs (process_packages (pre ++ (pkg, w) :: post) pd fs1) = _
      rw [habort post]
      rfl
    · simp [hlen]
    · refine ⟨l, ?_, hmem⟩
      rw [getLast?_cons_ne _ hne]
      exact hlast

/-! ### The archive event reaches the job log -/

theorem mem_resultEvents (pkg : Package) (pd : FsPath) (w : World) (fs : FS) (e : Event)
    (h : e ∈ (build_package_try pkg pd w fs).evs) :
    e ∈ resultEvents (build_package pkg pd w fs) := by
  rcases try_err_shape pkg pd w fs with hnone | ⟨c, hcpe⟩ | ⟨m, hos, _⟩
  · rw [build_package_of_none pkg pd w fs hnone]
    exact h
  · rw [build_package_of_cpe pkg pd w fs c hcpe]
    exact List.mem_append.mpr (Or.inl h)
  · rw [build_package_of_os pkg pd w fs m hos]
    exact h

theorem ranTar_mem_try (pkg : Package) (pd : FsPath) (w : World) (fs : FS)
    (hclone : fs.pathExists [pkg.name] = true ∨ w.cloneOk = true)
    (hco : w.checkoutOk = true)
    (hhook : pkg.pre_build_hook = "" ∨ w.hookOk = true) :
    Event.ranTar (tarball_name pkg) ∈ (build_package_try pkg pd w fs).evs := by
  unfold build_package_try
  set s0 : SRes := { fs := fs, evs := [], err := none } with hs0
  set sA := stepClone pkg w s0 with hA
  set sB := stepCheckout pkg w sA with hB
  set sC := stepHook pkg w sB with hC
  set sD := stepPatch pkg pd sC with hD
  have eA : sA.err = none := by
    rw [hA, stepClone_err_of pkg w s0 (by rw [hs0]; exact hclone), hs0]
  have eB : sB.err = none := by rw [hB, stepCheckout_err_of pkg w sA hco]; exact eA
  have eC : sC.err = none := by rw [hC, stepHook_err_of pkg w sB hhook]; exact eB
  have eD : sD.err = none := by rw [hD, stepPatch_err pkg pd sC]; exact eC
  exact stepBuild_mem pkg w _ _ (stepBuildDeps_mem pkg w _ _
    (stepPrepare_mem pkg w _ _ (stepArchive_tar_mem pkg w sD eD)))

/-! ### Frame lemmas: the PATCH step is the only writer under
`debian/patches` -/

theorem ne_of_length_lt {p t : FsPath} (h : p.length < t.length) : p ≠ t := by
  intro he
  rw [he] at h
  exact lt_irrefl _ h

theorem isDir_mkdirParents_eq (fs : FS) (p d : FsPath)
    (h : ∀ i, i < p.length → p.take (i + 1) ≠ d) :
    (fs.mkdirParents p).isDir d = fs.isDir d := by
  unfold FS.mkdirParents FS.isDir
  rw [decide_eq_decide]
  constructor
  · intro hm
    rcases List.mem_append.mp hm with hm1 | hm2
    · rcases List.mem_map.mp hm1 with ⟨i, hi, he⟩
      exact absurd he (h i (List.mem_range.mp hi))
    · exact hm2
  · intro hm
    exact List.mem_append.mpr (Or.inr hm)

theorem mkdirParents_short_isDir (fs : FS) (p t : FsPath) (h : p.length < t.length) :
    (fs.mkdirParents p).isDir t = fs.isDir t := by
  apply isDir_mkdirParents_eq
  intro i hi
  apply ne_of_length_lt
  have h2 : (p.take (i + 1)).length ≤ p.length := by
    rw [List.length_take]
    exact min_le_right _ _
  omega

theorem stepCheckout_fs (pkg : Package) (w : World) (s : SRes) :
    (stepCheckout pkg w s).fs = s.fs := by
  unfold stepCheckout
  repeat' split
  all_goals rfl

theorem stepHook_fs (pkg : Package) (w : World) (s : SRes) :
    (stepHook pkg w s).fs = s.fs := by
  unfold stepHook
  repeat' split
  all_goals rfl

theorem stepBuildDeps_fs (pkg : Package) (w : World) (s : SRes) :
    (stepBuildDeps pkg w s).fs = s.fs := by
  unfold stepBuildDeps
  repeat' split
  all_goals rfl

theorem stepBuild_fs (pkg : Package) (w : World) (s : SRes) :
    (stepBuild pkg w s).fs = s.fs := by
  unfold stepBuild
  repeat' split
  all_goals rfl

/-- With `apply_patches = false` the PATCH step does nothing at all. -/
theorem stepPatch_skip (pkg : Package) (pd : FsPath) (s : SRes)
    (hap : pkg.apply_patches = some false) : stepPatch pkg pd s = s := by
  have hap2 : pkg.applyPatches = false := by simp [Package.applyPatches, hap]
  unfold stepPatch
  split
  · rfl
  · rw [if_neg (by rw [hap2]; simp)]

theorem stepClone_patch_frame (pkg : Package) (w : World) (s : SRes) (q : FsPath) :
    (stepClone pkg w s).fs.readFile ([pkg.name, "debian", "patches"] ++ q)
        = s.fs.readFile ([pkg.name, "debian", "patches"] ++ q)
    ∧ (stepClone pkg w s).fs.isDir ([pkg.name, "debian", "patches"] ++ q)
        = s.fs.isDir ([pkg.name, "debian", "patches"] ++ q) := by
  have hlen : ([pkg.name] : FsPath).length
      < (([pkg.name, "debian", "patches"] : FsPath) ++ q).length := by simp
  unfold stepClone
  repeat' split
  · exact ⟨rfl, rfl⟩
  · exact ⟨rfl, rfl⟩
  · exact ⟨readFile_mkdirParents s.fs _ _, mkdirParents_short_isDir s.fs _ _ hlen⟩
  · exact ⟨rfl, rfl⟩

theorem stepArchive_patch_frame (pkg : Package) (w : World) (s : SRes) (q : FsPath) :
    (stepArchive pkg w s).fs.readFile ([pkg.name, "debian", "patches"] ++ q)
        = s.fs.readFile ([pkg.name, "debian", "patches"] ++ q)
    ∧ (stepArchive pkg w s).fs.isDir ([pkg.name, "debian", "patches"] ++ q)
        = s.fs.isDir ([pkg.name, "debian", "patches"] ++ q) := by
  have hne : ([tarball_name pkg] : FsPath) ≠ [pkg.name, "debian", "patches"] ++ q :=
    ne_of_length_lt (by simp)
  unfold stepArchive
  repeat' split
  · exact ⟨rfl, rfl⟩
  · constructor
    · rw [readFile_writeFile, if_neg hne]
    · rfl
  · exact ⟨rfl, rfl⟩

theorem stepPrepare_patch_frame (pkg : Package) (w : World) (s : SRes) (q : FsPath) :
    (stepPrepare pkg w s).fs.readFile ([pkg.name, "debian", "patches"] ++ q)
        = s.fs.readFile ([pkg.name, "debian", "patches"] ++ q)
    ∧ (stepPrepare pkg w s).fs.isDir ([pkg.name, "debian", "patches"] ++ q)
        = s.fs.isDir ([pkg.name, "debian", "patches"] ++ q) := by
  have hlen2 : (([pkg.name] : FsPath) ++ ["debian"]).length
      < (([pkg.name, "debian", "patches"] : FsPath) ++ q).length := by simp
  have hnei : (([pkg.name] : FsPath) ++ ["debian", "install"])
      ≠ [pkg.name, "debian", "patches"] ++ q := by
    cases q with
    | nil => simp
    | cons a as =>
      apply ne_of_length_lt
      simp
  unfold stepPrepare prepare_package
  repeat' split
  · exact ⟨rfl, rfl⟩
  · exact ⟨rfl, rfl⟩
  · constructor
    · rw [readFile_writeFile, if_neg hnei]
      exact readFile_mkdirParents s.fs _ _
    · exact mkdirParents_short_isDir s.fs _ _ hlen2
  · exact ⟨readFile_mkdirParents s.fs _ _, mkdirParents_short_isDir s.fs _ _ hlen2⟩
  · exact ⟨rfl, rfl⟩

/-- With `apply_patches = false`, `build_package` never calls
`apply_patches` and leaves the state under `debian/patches` untouched. -/
theorem build_package_no_patch (pkg : Package) (pd : FsPath) (w : World) (fs : FS)
    (hap : pkg.apply_patches = some false) (q : FsPath) :
    (∀ r p, Event.invokedApplyPatches r p ∉ resultEvents (build_package pkg pd w fs))
    ∧ (resultFS (build_package pkg pd w fs)).readFile ([pkg.name, "debian", "patches"] ++ q)
        = fs.readFile ([pkg.name, "debian", "patches"] ++ q)
    ∧ (resultFS (build_package pkg pd w fs)).isDir ([pkg.name, "debian", "patches"] ++ q)
        = fs.isDir ([pkg.name, "debian", "patches"] ++ q) := by
  have key : (∀ r p, Event.invokedApplyPatches r p ∉ (build_package_try pkg pd w fs).evs)
      ∧ (build_package_try pkg pd w fs).fs.readFile ([pkg.name, "debian", "patches"] ++ q)
          = fs.readFile ([pkg.name, "debian", "patches"] ++ q)
      ∧ (build_package_try pkg pd w fs).fs.isDir ([pkg.name, "debian", "patches"] ++ q)
          = fs.isDir ([pkg.name, "debian", "patches"] ++ q) := by
    unfold build_package_try
    set s0 : SRes := { fs := fs, evs := [], err := none } with hs0
    set sA := stepClone pkg w s0 with hA
    set sB := stepCheckout pkg w sA with hB
    set sC := stepHook pkg w sB with hC
    set sD := stepPatch pkg pd sC with hD
    set sE := stepArchive pkg w sD with hE
    set sF := stepPrepare pkg w sE with hF
    set sG := stepBuildDeps pkg w sF with hG
    have nA : ∀ r p, Event.invokedApplyPatches r p ∉ sA.evs := by
      rw [hA]
      apply stepClone_noInvoke
      intro r p
      rw [hs0]
      simp
    have nB : ∀ r p, Event.invokedApplyPatches r p ∉ sB.evs := by
      rw [hB]; exact stepCheckout_noInvoke pkg w sA nA
    have nC : ∀ r p, Event.invokedApplyPatches r p ∉ sC.evs := by
      rw [hC]; exact stepHook_noInvoke pkg w sB nB
    have nD : ∀ r p, Event.invokedApplyPatches r p ∉ sD.evs := by
      rw [hD]; exact stepPatch_noInvoke pkg pd sC hap nC
    have nE : ∀ r p, Event.invokedApplyPatches r p ∉ sE.evs := by
      rw [hE]; exact stepArchive_noInvoke pkg w sD nD
    have nF : ∀ r p, Event.invokedApplyPatches r p ∉ sF.evs := by
      rw [hF]; exact stepPrepare_noInvoke pkg w sE nE
    have nG : ∀ r p, Event.invokedApplyPatches r p ∉ sG.evs := by
      rw [hG]; exact stepBuildDeps_noInvoke pkg w sF nF
    have fA : sA.fs.readFile ([pkg.name, "debian", "patches"] ++ q)
          = fs.readFile ([pkg.name, "debian", "patches"] ++ q)
        ∧ sA.fs.isDir ([pkg.name, "debian", "patches"] ++ q)
          = fs.isDir ([pkg.name, "debian", "patches"] ++ q) := by
      rw [hA]
      exact stepClone_patch_frame pkg w s0 q
    have fB : sB.fs = sA.fs := by rw [hB]; exact stepCheckout_fs pkg w sA
    have fC : sC.fs = sB.fs := by rw [hC]; exact stepHook_fs pkg w sB
    have fD : sD = sC := by rw [hD]; exact stepPatch_skip pkg pd sC hap
    have fE : sE.fs.readFile ([pkg.name, "debian", "patches"] ++ q)
          = sD.fs.readFile ([pkg.name, "debian", "patches"] ++ q)
        ∧ sE.fs.isDir ([pkg.name, "debian", "patches"] ++ q)
          = sD.fs.isDir ([pkg.name, "debian", "patches"] ++ q) := by
      rw [hE]
      exact stepArchive_patch_frame pkg w sD q
    have fF : sF.fs.readFile ([pkg.name, "debian", "patches"] ++ q)
          = sE.fs.readFile ([pkg.name, "debian", "patches"] ++ q)
        ∧ sF.fs.isDir ([pkg.name, "debian", "patches"] ++ q)
          = sE.fs.isDir ([pkg.name, "debian", "patches"] ++ q) := by
      rw [hF]
      exact stepPrepare_patch_frame pkg w sE q
    have fG : sG.fs = sF.fs := by rw [hG]; exact stepBuildDeps_fs pkg w sF
    refine ⟨?_, ?_, ?_⟩
    · intro r p
      exact stepBuild_noInvoke pkg w sG nG r p
    · rw [stepBuild_fs pkg w sG, fG, fF.1, fE.1, fD, fC, fB, fA.1]
    · rw [stepBuild_fs pkg w sG, fG, fF.2, fE.2, fD, fC, fB, fA.2]
  obtain ⟨hinv, hrd, hdir⟩ := key
  rcases try_err_shape pkg pd w fs with hnone | ⟨c, hcpe⟩ | ⟨m, hos, _⟩
  · rw [build_package_of_none pkg pd w fs hnone]
    exact ⟨hinv, hrd, hdir⟩
  · rw [build_package_of_cpe pkg pd w fs c hcpe]
    refine ⟨?_, hrd, hdir⟩
    intro r p
    intro hmem
    rcases List.mem_append.mp hmem with h1 | h2
    · exact hinv r p h1
    · simp at h2
  · rw [build_package_of_os pkg pd w fs m hos]
    exact ⟨hinv, hrd, hdir⟩

/-! ### The two outcomes of the build fallback -/

theorem stepBuild_err_fallback_ok (pkg : Package) (w : World) (s : SRes)
    (hs : s.err = none) (hp : w.primaryBuildOk = false) (hf : w.fallbackBuildOk = true) :
    (stepBuild pkg w s).err = none := by
  unfold stepBuild
  rw [if_neg (by rw [hs]; simp), if_neg (by rw [hp]; simp), if_pos hf]
  exact hs

theorem stepBuild_err_fallback_fail (pkg : Package) (w : World) (s : SRes)
    (hs : s.err = none) (hp : w.primaryBuildOk = false) (hf : w.fallbackBuildOk = false) :
    (stepBuild pkg w s).err
      = some (StepErr.cpe (pkg.build_cmd.getD defaultBuildCmdBin)) := by
  unfold stepBuild
  rw [if_neg (by rw [hs]; simp), if_neg (by rw [hp]; simp), if_neg (by rw [hf]; simp)]

/-! ## The claims -/

/-! ### Concrete inputs used by the witnesses -/

def c1pkg : Package := { name := "foo", scm_url := "https://example.org/foo", commit_id := "v1" }

def c1fs : FS := { dirs := [], files := [] }

def c2okA : Package := { name := "liba", scm_url := "u1", commit_id := "v1" }

def c2fail : Package := { name := "libb", scm_url := "u2", commit_id := "v2" }

def c2okB : Package := { name := "libc", scm_url := "u3", commit_id := "v3" }

def c2wFail : World := { checkoutOk := false }

def c3pre : Package := { name := "liba", scm_url := "u1", commit_id := "v1" }

def c3pkg : Package :=
  { name := "libp", scm_url := "u2", commit_id := "v2",
    prepare_package := some true, install_data := "usr/bin" }

def c3w : World := { installWriteError := some "Permission denied" }

def c5fs : FS :=
  { dirs := [["patches", "foo"]],
    files := [(["patches", "foo", "b.patch"], "B"), (["patches", "foo", "a.patch"], "A"),
              (["patches", "foo", "c.patch"], "C")] }

def c4fs : FS := { dirs := [["patches", "foo"]], files := [] }

def c7pkg : Package := { name := "foo", scm_url := "u", commit_id := "feature/x" }

def c8pkg : Package :=
  { name := "foo", scm_url := "u", commit_id := "v", apply_patches := some false }

def c8fs : FS :=
  { dirs := [["patches", "foo"], ["foo", "patches"]],
    files := [(["patches", "foo", "a.patch"], "A")] }

def c9pkg : Package := { name := "foo", scm_url := "u", commit_id := "v" }

def c9w : World := { primaryBuildOk := false }

def c10pkg : Package :=
  { name := "foo", scm_url := "u", commit_id := "v", build_cmd := some "make deb" }

/-- C1: the spec (and the code's own comment at the `if`) say the PATCH
step runs only when a `patches` subdirectory exists in the checkout.
The code instead tests `if (repo_dir / 'patches'):`, the truthiness of
a `pathlib.Path` object, which is always `True`; so with the default
`apply_patches` the Patch Applier is invoked even though `foo/patches`
does not exist anywhere in the filesystem. -/
theorem patch_step_runs_without_patches_dir :
    c1fs.pathExists ["foo", "patches"] = false
    ∧ c1pkg.apply_patches = none
    ∧ Event.invokedApplyPatches ["foo"] ["patches", "foo"]
        ∈ resultEvents (build_package c1pkg ["patches"] { } c1fs) := by
  decide

/-- C2: if job i raises a `CalledProcessError` in checkout, a
configured pre-build hook, archive creation, or in both build
invocations, the per-job handler catches it, the
`Failed to build package <name>: <error>` line is logged in that job's
log, and every other job of the list still runs to completion. -/
theorem per_job_failure_isolated (pre : List (Package × World)) (pkg : Package) (w : World)
    (post : List (Package × World)) (pd : FsPath) (fs : FS)
    (hall : ∀ pw ∈ pre ++ (pkg, w) :: post, pw.2.installWriteError = none)
    (hfail : cpeFailure pkg w) :
    ∃ logs fs2, process_packages (pre ++ (pkg, w) :: post) pd fs = Except.ok (logs, fs2)
      ∧ logs.length = pre.length + 1 + post.length
      ∧ (∃ l c, logs[pre.length]? = some l ∧ Event.failLog pkg.name c ∈ l
          ∧ Event.ranCopyPackages ∈ l)
      ∧ ∀ l ∈ logs, Event.ranCopyPackages ∈ l :=
  process_packages_contained pre pkg w post pd fs hall hfail

theorem per_job_failure_isolated_witness :
    cpeFailure c2fail c2wFail
    ∧ (∀ pw ∈ [(c2okA, ({ } : World))] ++ (c2fail, c2wFail) :: [(c2okB, ({ } : World))],
        pw.2.installWriteError = none)
    ∧ ∃ logs fs2,
        process_packages ([(c2okA, ({ } : World))] ++ (c2fail, c2wFail) :: [(c2okB, ({ } : World))])
            ["patches"] { dirs := [], files := [] } = Except.ok (logs, fs2)
        ∧ logs.length = 1 + 1 + 1
        ∧ (∃ l c, logs[1]? = some l ∧ Event.failLog c2fail.name c ∈ l
            ∧ Event.ranCopyPackages ∈ l)
        ∧ ∀ l ∈ logs, Event.ranCopyPackages ∈ l :=
  ⟨by decide, by decide,
    per_job_failure_isolated [(c2okA, { })] c2fail c2wFail [(c2okB, { })] ["patches"]
      { dirs := [], files := [] } (by decide) (by decide)⟩

/-- C3: a filesystem error while `prepare_package` writes the install
manifest is logged and re-raised; `build_package` does not catch it, so
the whole run aborts with that error: only the jobs before the failing
one (and the failing one) produced logs, and whatever jobs come after
the failing one never change the outcome. -/
theorem prepare_failure_aborts_run (pre : List (Package × World)) (pkg : Package) (w : World)
    (pd : FsPath) (fs : FS) (m : String)
    (hpre : ∀ pw ∈ pre, pw.2.installWriteError = none)
    (hclone : w.cloneOk = true) (hco : w.checkoutOk = true)
    (hhook : pkg.pre_build_hook = "" ∨ w.hookOk = true) (htar : w.tarOk = true)
    (hprep : pkg.prepare_package = some true) (hdata : pkg.install_data ≠ "")
    (herr : w.installWriteError = some m) :
    ∃ logs, (∀ post, process_packages (pre ++ (pkg, w) :: post) pd fs
          = Except.error (m, logs))
      ∧ logs.length = pre.length + 1
      ∧ ∃ l, logs.getLast? = some l
          ∧ Event.log ("Failed to prepare package: " ++ m) ∈ l :=
  process_packages_abort pre pkg w pd fs m hpre hclone hco hhook htar hprep hdata herr

theorem prepare_failure_aborts_run_witness :
    c3pkg.prepare_package = some true
    ∧ c3w.installWriteError = some "Permission denied"
    ∧ ∃ logs, (∀ post, process_packages ([(c3pre, ({ } : World))] ++ (c3pkg, c3w) :: post)
            ["patches"] { dirs := [], files := [] }
          = Except.error ("Permission denied", logs))
        ∧ logs.length = 1 + 1
        ∧ ∃ l, logs.getLast? = some l
            ∧ Event.log ("Failed to prepare package: " ++ "Permission denied") ∈ l :=
  ⟨rfl, rfl,
    prepare_failure_aborts_run [(c3pre, { })] c3pkg c3w ["patches"]
      { dirs := [], files := [] } "Permission denied"
      (by decide) rfl rfl (Or.inl rfl) rfl rfl (by decide) rfl⟩

/-- C4: with the per-job patch directory absent (or not a directory) or
holding no files, `apply_patches` returns without modifying the
checkout: in particular it creates neither the `debian/patches`
directory nor the `series` manifest. -/
theorem apply_patches_noop_on_empty (repo patch_dir : FsPath) (fs : FS)
    (h : fs.isDir patch_dir = false ∨ fs.childNames patch_dir = []) :
    apply_patches repo patch_dir fs = fs
    ∧ (fs.isDir (repo ++ ["debian", "patches"]) = false →
        (apply_patches repo patch_dir fs).isDir (repo ++ ["debian", "patches"]) = false)
    ∧ (fs.readFile (repo ++ ["debian", "patches", "series"]) = none →
        (apply_patches repo patch_dir fs).readFile (repo ++ ["debian", "patches", "series"])
          = none) := by
  have heq : apply_patches repo patch_dir fs = fs := by
    rcases h with h1 | h2
    · unfold apply_patches
      rw [if_neg (by rw [h1]; simp)]
    · unfold apply_patches
      by_cases hd : fs.isDir patch_dir = true
      · rw [if_pos hd]
        simp [h2, sortNames]
      · rw [if_neg hd]
  exact ⟨heq, fun h1 => by rw [heq]; exact h1, fun h2 => by rw [heq]; exact h2⟩

theorem apply_patches_noop_on_empty_witness :
    c4fs.isDir ["patches", "foo"] = true
    ∧ c4fs.childNames ["patches", "foo"] = []
    ∧ apply_patches ["repo"] ["patches", "foo"] c4fs = c4fs := by
  refine ⟨by decide, by decide, ?_⟩
  exact (apply_patches_noop_on_empty ["repo"] ["patches", "foo"] c4fs (Or.inr (by decide))).1

/-- C5: on a non-empty patch directory, `apply_patches` copies each
patch file into the checkout's `debian/patches` and appends the file
names to the `series` manifest, one per line, in lexicographic order of
the file names. -/
theorem patch_series_lexicographic (repo patch_dir : FsPath) (fs : FS)
    (hdir : fs.isDir patch_dir = true)
    (hne : fs.childNames patch_dir ≠ [])
    (hnodup : (fs.childNames patch_dir).Nodup)
    (hser : "series" ∉ fs.childNames patch_dir)
    (hdp : repo ++ ["debian", "patches"] ≠ patch_dir) :
    List.Perm (sortNames (fs.childNames patch_dir)) (fs.childNames patch_dir)
    ∧ (sortNames (fs.childNames patch_dir)).Sorted (fun a b => a ≤ b)
    ∧ (apply_patches repo patch_dir fs).readFile (repo ++ ["debian", "patches", "series"])
        = some (((fs.readFile (repo ++ ["debian", "patches", "series"])).getD "")
            ++ seriesText (sortNames (fs.childNames patch_dir)))
    ∧ ∀ n ∈ sortNames (fs.childNames patch_dir),
        (apply_patches repo patch_dir fs).readFile (repo ++ ["debian", "patches"] ++ [n])
          = some ((fs.readFile (patch_dir ++ [n])).getD "") := by
  obtain ⟨h1, h2, _, _, _⟩ := apply_patches_spec repo patch_dir fs hdir hne hnodup hser hdp
  refine ⟨List.perm_insertionSort _ _, ?_, h1, h2⟩
  exact List.Pairwise.imp (fun hxy => strLe_le hxy) (List.sorted_insertionSort _ _)

theorem patch_series_lexicographic_witness :
    c5fs.childNames ["patches", "foo"] = ["b.patch", "a.patch", "c.patch"]
    ∧ (c5fs.childNames ["patches", "foo"]).Nodup
    ∧ (apply_patches ["repo"] ["patches", "foo"] c5fs).readFile
        ["repo", "debian", "patches", "series"]
      = some "a.patch\nb.patch\nc.patch\n" := by
  refine ⟨by decide, by decide, ?_⟩
  have h := patch_series_lexicographic ["repo"] ["patches", "foo"] c5fs (by decide) (by decide)
    (by decide) (by decide) (by decide)
  exact h.2.2.1.trans (by decide)

/-- C6: running `apply_patches` twice on the same checkout is not
idempotent: the `series` manifest is opened in append mode, so the
second run appends the same (sorted) file names again, and the
resulting state differs from the state after one run. -/
theorem apply_patches_not_idempotent (repo patch_dir : FsPath) (fs : FS)
    (hdir : fs.isDir patch_dir = true)
    (hne : fs.childNames patch_dir ≠ [])
    (hnodup : (fs.childNames patch_dir).Nodup)
    (hser : "series" ∉ fs.childNames patch_dir)
    (hdp : repo ++ ["debian", "patches"] ≠ patch_dir) :
    (apply_patches repo patch_dir (apply_patches repo patch_dir fs)).readFile
        (repo ++ ["debian", "patches", "series"])
      = some (((fs.readFile (repo ++ ["debian", "patches", "series"])).getD "")
          ++ seriesText (sortNames (fs.childNames patch_dir))
          ++ seriesText (sortNames (fs.childNames patch_dir)))
    ∧ apply_patches repo patch_dir (apply_patches repo patch_dir fs)
        ≠ apply_patches repo patch_dir fs := by
  obtain ⟨h1, _, h3, h4, _⟩ := apply_patches_spec repo patch_dir fs hdir hne hnodup hser hdp
  have hne2 : (apply_patches repo patch_dir fs).childNames patch_dir ≠ [] := by
    rw [h4]; exact hne
  have hnodup2 : ((apply_patches repo patch_dir fs).childNames patch_dir).Nodup := by
    rw [h4]; exact hnodup
  have hser2 : "series" ∉ (apply_patches repo patch_dir fs).childNames patch_dir := by
    rw [h4]; exact hser
  obtain ⟨g1, _, _, _, _⟩ := apply_patches_spec repo patch_dir (apply_patches repo patch_dir fs)
    h3 hne2 hnodup2 hser2 hdp
  have hJ : 1 ≤ (seriesText (sortNames (fs.childNames patch_dir))).length := by
    have hpne : sortNames (fs.childNames patch_dir) ≠ [] := by
      intro hnil
      have hp : List.Perm (sortNames (fs.childNames patch_dir)) (fs.childNames patch_dir) :=
        List.perm_insertionSort _ _
      rw [hnil] at hp
      exact hne (List.Perm.eq_nil hp.symm)
    obtain ⟨n, tl, hcons⟩ := List.exists_cons_of_ne_nil hpne
    rw [hcons]
    show 1 ≤ (n ++ "\n" ++ seriesText tl).length
    rw [String.length_append, String.length_append]
    have : ("\n" : String).length = 1 := rfl
    omega
  have hmain : (apply_patches repo patch_dir (apply_patches repo patch_dir fs)).readFile
      (repo ++ ["debian", "patches", "series"])
    = some (((fs.readFile (repo ++ ["debian", "patches", "series"])).getD "")
        ++ seriesText (sortNames (fs.childNames patch_dir))
        ++ seriesText (sortNames (fs.childNames patch_dir))) := by
    rw [g1, h4, h1]
    rfl
  refine ⟨hmain, ?_⟩
  intro hcontra
  have hread : (apply_patches repo patch_dir (apply_patches repo patch_dir fs)).readFile
        (repo ++ ["debian", "patches", "series"])
      = (apply_patches repo patch_dir fs).readFile (repo ++ ["debian", "patches", "series"]) := by
    rw [hcontra]
  rw [hmain, h1] at hread
  injection hread with hs
  have hlen := congrArg String.length hs
  simp only [String.length_append] at hlen
  omega

theorem apply_patches_not_idempotent_witness :
    (c5fs.childNames ["patches", "foo"]).Nodup
    ∧ (apply_patches ["repo"] ["patches", "foo"]
          (apply_patches ["repo"] ["patches", "foo"] c5fs)).readFile
        ["repo", "debian", "patches", "series"]
      = some "a.patch\nb.patch\nc.patch\na.patch\nb.patch\nc.patch\n"
    ∧ apply_patches ["repo"] ["patches", "foo"] (apply_patches ["repo"] ["patches", "foo"] c5fs)
        ≠ apply_patches ["repo"] ["patches", "foo"] c5fs := by
  have h := apply_patches_not_idempotent ["repo"] ["patches", "foo"] c5fs (by decide) (by decide)
    (by decide) (by decide) (by decide)
  exact ⟨by decide, h.1.trans (by decide), h.2⟩

/-- C7: the archive built for a job is named by the job name, an
underscore, the commit reference with every `/` replaced by `_`, and
the suffix `.tar.gz`. -/
theorem tarball_named_after_job_and_sanitized_commit (pkg : Package) (pd : FsPath)
    (w : World) (fs : FS)
    (hclone : fs.pathExists [pkg.name] = true ∨ w.cloneOk = true)
    (hco : w.checkoutOk = true)
    (hhook : pkg.pre_build_hook = "" ∨ w.hookOk = true) :
    Event.ranTar (pkg.name ++ "_" ++ sanitizeCommit pkg.commit_id ++ ".tar.gz")
      ∈ resultEvents (build_package pkg pd w fs) :=
  mem_resultEvents pkg pd w fs _ (ranTar_mem_try pkg pd w fs hclone hco hhook)

theorem tarball_named_after_job_and_sanitized_commit_witness :
    (c7pkg.name ++ "_" ++ sanitizeCommit c7pkg.commit_id ++ ".tar.gz" = "foo_feature_x.tar.gz")
    ∧ Event.ranTar (c7pkg.name ++ "_" ++ sanitizeCommit c7pkg.commit_id ++ ".tar.gz")
        ∈ resultEvents (build_package c7pkg ["patches"] { } { dirs := [], files := [] }) :=
  ⟨by decide,
    tarball_named_after_job_and_sanitized_commit c7pkg ["patches"] { }
      { dirs := [], files := [] } (Or.inr rfl) rfl (Or.inl rfl)⟩

/-- C8: with `apply_patches = false` the Package Builder never invokes
the Patch Applier, whatever exists on disk, and the PATCH step leaves
everything under the checkout's `debian/patches` untouched (files and
directories alike). -/
theorem apply_patches_false_skips_patch (pkg : Package) (pd : FsPath) (w : World) (fs : FS)
    (r p q : FsPath)
    (hap : pkg.apply_patches = some false) :
    Event.invokedApplyPatches r p ∉ resultEvents (build_package pkg pd w fs)
    ∧ (resultFS (build_package pkg pd w fs)).readFile ([pkg.name, "debian", "patches"] ++ q)
        = fs.readFile ([pkg.name, "debian", "patches"] ++ q)
    ∧ (resultFS (build_package pkg pd w fs)).isDir ([pkg.name, "debian", "patches"] ++ q)
        = fs.isDir ([pkg.name, "debian", "patches"] ++ q) := by
  obtain ⟨h1, h2, h3⟩ := build_package_no_patch pkg pd w fs hap q
  exact ⟨h1 r p, h2, h3⟩

theorem apply_patches_false_skips_patch_witness :
    c8pkg.apply_patches = some false
    ∧ c8fs.isDir ["patches", "foo"] = true
    ∧ Event.invokedApplyPatches ["foo"] ["patches", "foo"]
        ∉ resultEvents (build_package c8pkg ["patches"] { } c8fs)
    ∧ (resultFS (build_package c8pkg ["patches"] { } c8fs)).readFile
          (["foo", "debian", "patches"] ++ ["series"])
        = c8fs.readFile (["foo", "debian", "patches"] ++ ["series"])
    ∧ (resultFS (build_package c8pkg ["patches"] { } c8fs)).isDir
          (["foo", "debian", "patches"] ++ ["series"])
        = c8fs.isDir (["foo", "debian", "patches"] ++ ["series"]) := by
  have h := apply_patches_false_skips_patch c8pkg ["patches"] { } c8fs
    ["foo"] ["patches", "foo"] ["series"] rfl
  exact ⟨rfl, by decide, h.1, h.2.1, h.2.2⟩

/-- C9: when the primary build command fails, the builder retries
exactly once with the fallback build command; if the fallback succeeds
the job completes normally with no `Failed to build package` line, and
if it also fails the exception propagates to the job's outer handler,
whose line then ends the job log.  No run ever attempts more than two
build commands. -/
theorem build_fallback_retry_once (pkg : Package) (pd : FsPath) (w : World) (fs : FS)
    (hclone : fs.pathExists [pkg.name] = true ∨ w.cloneOk = true)
    (hco : w.checkoutOk = true)
    (hhook : pkg.pre_build_hook = "" ∨ w.hookOk = true)
    (htar : w.tarOk = true)
    (hos : w.installWriteError = none)
    (hmk : w.mkBuildDepsOk = true) (hdpk : w.dpkgInstallOk = true)
    (hp : w.primaryBuildOk = false) :
    buildAttempts (resultEvents (build_package pkg pd w fs)) = 2
    ∧ (w.fallbackBuildOk = true →
        ∃ evs fs2, build_package pkg pd w fs = Except.ok (evs, fs2)
          ∧ ∀ c, Event.failLog pkg.name c ∉ evs)
    ∧ (w.fallbackBuildOk = false →
        ∃ evs fs2 c, build_package pkg pd w fs = Except.ok (evs, fs2)
          ∧ evs.getLast? = some (Event.failLog pkg.name c))
    ∧ ∀ w2 fs2, buildAttempts (resultEvents (build_package pkg pd w2 fs2)) ≤ 2 := by
  obtain ⟨s, hserr, htry, hcmds, hnofail⟩ := try_reached pkg pd w fs hclone hco hhook htar hos
  have hc2 : buildCmds ((build_package_try pkg pd w fs).evs)
      = [pkg.build_cmd.getD defaultBuildCmdFull, pkg.build_cmd.getD defaultBuildCmdBin] := by
    rw [htry, stepBuild_cmds_primary_fail pkg w s hserr hp, hcmds]
    rfl
  have hattempts : buildAttempts (resultEvents (build_package pkg pd w fs)) = 2 := by
    by_cases hf : w.fallbackBuildOk = true
    · have hnone : (build_package_try pkg pd w fs).err = none := by
        rw [htry]; exact stepBuild_err_fallback_ok pkg w s hserr hp hf
      rw [build_package_of_none pkg pd w fs hnone]
      show buildAttempts ((build_package_try pkg pd w fs).evs) = 2
      unfold buildAttempts
      rw [hc2]
      rfl
    · have hf2 : w.fallbackBuildOk = false := by
        cases hww : w.fallbackBuildOk
        · rfl
        · exact absurd hww hf
      have hcpe : (build_package_try pkg pd w fs).err
          = some (StepErr.cpe (pkg.build_cmd.getD defaultBuildCmdBin)) := by
        rw [htry]; exact stepBuild_err_fallback_fail pkg w s hserr hp hf2
      rw [build_package_of_cpe pkg pd w fs _ hcpe]
      show buildAttempts ((build_package_try pkg pd w fs).evs
        ++ [Event.failLog pkg.name (pkg.build_cmd.getD defaultBuildCmdBin)]) = 2
      unfold buildAttempts
      have happ : buildCmds ((build_package_try pkg pd w fs).evs
          ++ [Event.failLog pkg.name (pkg.build_cmd.getD defaultBuildCmdBin)])
        = buildCmds ((build_package_try pkg pd w fs).evs) := by
        simp [buildCmds, List.filterMap_append]
      rw [happ, hc2]
      rfl
  refine ⟨hattempts, ?_, ?_, fun w2 fs2 => buildAttempts_le_two pkg pd w2 fs2⟩
  · intro hf
    have hnone : (build_package_try pkg pd w fs).err = none := by
      rw [htry]; exact stepBuild_err_fallback_ok pkg w s hserr hp hf
    refine ⟨(build_package_try pkg pd w fs).evs, (build_package_try pkg pd w fs).fs,
      build_package_of_none pkg pd w fs hnone, ?_⟩
    intro c
    rw [htry]
    exact stepBuild_noFail pkg w s (hnofail ⟨hmk, hdpk⟩) pkg.name c
  · intro hf
    have hcpe : (build_package_try pkg pd w fs).err
        = some (StepErr.cpe (pkg.build_cmd.getD defaultBuildCmdBin)) := by
      rw [htry]; exact stepBuild_err_fallback_fail pkg w s hserr hp hf
    refine ⟨_, _, pkg.build_cmd.getD defaultBuildCmdBin,
      build_package_of_cpe pkg pd w fs _ hcpe, ?_⟩
    simp

theorem build_fallback_retry_once_witness :
    c9w.primaryBuildOk = false ∧ c9w.fallbackBuildOk = true
    ∧ buildAttempts (resultEvents (build_package c9pkg ["patches"] c9w
        { dirs := [], files := [] })) = 2 :=
  ⟨rfl, rfl,
    (build_fallback_retry_once c9pkg ["patches"] c9w { dirs := [], files := [] }
      (Or.inr rfl) rfl (Or.inl rfl) rfl rfl rfl rfl rfl).1⟩

/-- C10: on a primary build failure the fallback runs
`package.get('build_cmd', 'dpkg-buildpackage -uc -us -tc -b')`: with a
custom `build_cmd` the retry executes exactly the same command string as
the primary attempt, and the binary-only default is used as the
fallback only when no `build_cmd` override is configured. -/
theorem fallback_same_custom_build_cmd (pkg : Package) (pd : FsPath) (w : World) (fs : FS)
    (hclone : fs.pathExists [pkg.name] = true ∨ w.cloneOk = true)
    (hco : w.checkoutOk = true)
    (hhook : pkg.pre_build_hook = "" ∨ w.hookOk = true)
    (htar : w.tarOk = true)
    (hos : w.installWriteError = none)
    (hp : w.primaryBuildOk = false) :
    (∀ c, pkg.build_cmd = some c →
        buildCmds (resultEvents (build_package pkg pd w fs)) = [c, c])
    ∧ (pkg.build_cmd = none →
        buildCmds (resultEvents (build_package pkg pd w fs))
          = [defaultBuildCmdFull, defaultBuildCmdBin]) := by
  obtain ⟨s, hserr, htry, hcmds, _⟩ := try_reached pkg pd w fs hclone hco hhook htar hos
  have hc2 : buildCmds ((build_package_try pkg pd w fs).evs)
      = [pkg.build_cmd.getD defaultBuildCmdFull, pkg.build_cmd.getD defaultBuildCmdBin] := by
    rw [htry, stepBuild_cmds_primary_fail pkg w s hserr hp, hcmds]
    rfl
  have hres : buildCmds (resultEvents (build_package pkg pd w fs))
      = [pkg.build_cmd.getD defaultBuildCmdFull, pkg.build_cmd.getD defaultBuildCmdBin] := by
    rcases try_err_shape pkg pd w fs with hnone | ⟨c, hcpe⟩ | ⟨m, hos2, _⟩
    · rw [build_package_of_none pkg pd w fs hnone]
      exact hc2
    · rw [build_package_of_cpe pkg pd w fs c hcpe]
      show buildCmds ((build_package_try pkg pd w fs).evs ++ [Event.failLog pkg.name c]) = _
      have happ : buildCmds ((build_package_try pkg pd w fs).evs ++ [Event.failLog pkg.name c])
          = buildCmds ((build_package_try pkg pd w fs).evs) := by
        simp [buildCmds, List.filterMap_append]
      rw [happ]
      exact hc2
    · rw [build_package_of_os pkg pd w fs m hos2]
      exact hc2
  constructor
  · intro c hbc
    rw [hres, hbc]
    rfl
  · intro hbc
    rw [hres, hbc]
    rfl

theorem fallback_same_custom_build_cmd_witness :
    c10pkg.build_cmd = some "make deb"
    ∧ buildCmds (resultEvents (build_package c10pkg ["patches"]
        { primaryBuildOk := false } { dirs := [], files := [] })) = ["make deb", "make deb"] :=
  ⟨rfl,
    (fallback_same_custom_build_cmd c10pkg ["patches"] { primaryBuildOk := false }
      { dirs := [], files := [] } (Or.inr rfl) rfl (Or.inl rfl) rfl rfl rfl).1 "make deb" rfl⟩

end VyosBuild
